import Mathlib

set_option maxRecDepth 8000
set_option linter.unusedVariables false

/-!
Verification development for the `obsidian-save-images-offline` plugin.

The TypeScript sources (`src/utils.ts`, `src/imageProcessor.ts`,
`src/settings.ts`) are shallowly embedded below.  JavaScript strings are
modelled as `List Char`; the external collaborators (the network `fetch`,
the canvas based PNG→JPEG transcoder, Node's `crypto` MD5, and Obsidian's
vault adapter) are modelled as explicit oracles / an explicit vault state.
Asynchronous per-match work in `processContent` is applied in match order,
which is the deterministic linearisation produced by `replaceAsync`
(promises are created in match order over the unchanged input string and
spliced back in that same order).
-/

namespace SaveImagesOffline

/-- JavaScript strings are modelled as lists of characters. -/
abbrev Str := List Char

/-- Coerces a Lean string literal to the character-list representation. -/
def str (s : String) : Str := s.data

/-- Lowercases an ASCII letter, leaving other characters unchanged (the
fragment of JavaScript `toLowerCase` exercised by the URLs handled here). -/
def lcChar (c : Char) : Char :=
  if 'A' ≤ c ∧ c ≤ 'Z' then Char.ofNat (c.toNat + 32) else c

/-- ASCII lowercasing of a whole string. -/
def lower (s : Str) : Str := s.map lcChar

/-- Case-insensitive character comparison (for regexes carrying the `i` flag). -/
def ciEq (a b : Char) : Bool := lcChar a == lcChar b

def isDigitCh (c : Char) : Bool := '0' ≤ c && c ≤ '9'

def isAlphaCh (c : Char) : Bool := ('a' ≤ c && c ≤ 'z') || ('A' ≤ c && c ≤ 'Z')

def isAlnumCh (c : Char) : Bool := isDigitCh c || isAlphaCh c

/-- The JavaScript regex class `\w`. -/
def isWordCh (c : Char) : Bool := isAlnumCh c || c = '_'

/-- The JavaScript regex class `\s` (the full whitespace list of the spec). -/
def jsSpace (c : Char) : Bool :=
  let n := c.toNat
  n = 32 || n = 9 || n = 10 || n = 11 || n = 12 || n = 13 ||
  n = 0xa0 || n = 0x1680 || (0x2000 ≤ n && n ≤ 0x200a) ||
  n = 0x2028 || n = 0x2029 || n = 0x202f || n = 0x205f || n = 0x3000 || n = 0xfeff

/-- The JavaScript regex metacharacter `.` (anything but a line terminator). -/
def jsDot (c : Char) : Bool :=
  ¬ (c.toNat = 10 || c.toNat = 13 || c.toNat = 0x2028 || c.toNat = 0x2029)

/-- Consumes a case-sensitive literal, returning the remainder. -/
def dropLit : Str → Str → Option Str
  | [], cs => some cs
  | _ :: _, [] => none
  | l :: ls, c :: cs => if l == c then dropLit ls cs else none

/-- Consumes a case-insensitive literal, returning the remainder. -/
def dropLitCI : Str → Str → Option Str
  | [], cs => some cs
  | _ :: _, [] => none
  | l :: ls, c :: cs => if ciEq l c then dropLitCI ls cs else none

/-- Tries a parser at every suffix, returning the earliest success — the
semantics of an unanchored regex search. -/
def firstSome (p : Str → Option α) : Str → Option α
  | [] => p []
  | c :: cs =>
    match p (c :: cs) with
    | some r => some r
    | none => firstSome p cs

/-- Tests a predicate at every suffix (regex `test` semantics). -/
def anySuffix (p : Str → Bool) : Str → Bool
  | [] => p []
  | c :: cs => p (c :: cs) || anySuffix p cs

/-- Substring containment, case sensitive (JavaScript `includes`). -/
def containsSub (needle s : Str) : Bool :=
  anySuffix (fun cs => (dropLit needle cs).isSome) s

/-- JavaScript `String.prototype.endsWith`. -/
def jsEndsWith (s suff : Str) : Bool :=
  suff == s.drop (s.length - suff.length)

/-- Splits on a separator character (JavaScript `split` with a one-character
separator). -/
def splitOnCharL (sep : Char) : Str → List Str
  | [] => [[]]
  | c :: rest =>
    let r := splitOnCharL sep rest
    if c = sep then [] :: r
    else
      match r with
      | h :: t => (c :: h) :: t
      | [] => [[c]]

/-- JavaScript `String.prototype.trim` (whitespace from both ends). -/
def jsTrim (s : Str) : Str :=
  ((s.dropWhile jsSpace).reverse.dropWhile jsSpace).reverse

/-- Last list element, or a default (JavaScript `array.pop()` on a nonempty
split result). -/
def lastGetD (l : List Str) (d : Str) : Str := l.getLast? |>.getD d

/-- The part of a path after the last `/` (JavaScript `split('/').pop()`). -/
def afterLastSlash (s : Str) : Str := lastGetD (splitOnCharL '/' s) s

/-- `s.substring(0, s.lastIndexOf('/') + 1)`: the directory prefix of a note
path, including the trailing slash, or empty when there is no slash. -/
def dirPrefixOf (s : Str) : Str :=
  if s.contains '/' then
    ((splitOnCharL '/' s).dropLast.map (fun seg => seg ++ [('/' : Char)])).flatten
  else []

/-- Global replacement of `//` by `/` (the `replace(/\/\//g, '/')` call on
note-relative image paths). -/
def collapseDoubleSlash : Str → Str
  | '/' :: '/' :: rest => '/' :: collapseDoubleSlash rest
  | c :: rest => c :: collapseDoubleSlash rest
  | [] => []

/-! ## Fetcher: `downloadImage` (src/utils.ts lines 80-128)

The network is an oracle mapping the attempt index to either the response
bytes (a 2xx response) or a failure (network error, timeout abort or a
non-2xx status, which the source converts into a thrown error).  The timing
side effects are recorded in an event trace: one `fetch` event per issued
request and one `wait n` event per `setTimeout(resolve, n)` backoff. -/

/-- Observable events of one `downloadImage` call. -/
inductive DlEvent where
  | fetch : DlEvent
  | wait : Nat → DlEvent
deriving DecidableEq, Repr

/-- Loop body of `downloadImage`, indexed by the number of attempts that are
still allowed (`retries - attempts`); `k` is the index of the next attempt.
`remaining = 0` is the exit of `while (attempts < retries)`;
on a failure the source increments `attempts` and returns `null` without a
backoff wait when `attempts >= retries`, otherwise waits 1000 ms and loops. -/
def dlRun (oracle : Nat → Option (List Nat)) (k : Nat) :
    Nat → List DlEvent × Option (List Nat)
  | 0 => ([], none)
  | 1 =>
    match oracle k with
    | some b => ([DlEvent.fetch], some b)
    | none => ([DlEvent.fetch], none)
  | remaining + 2 =>
    match oracle k with
    | some b => ([DlEvent.fetch], some b)
    | none =>
      let r := dlRun oracle (k + 1) (remaining + 1)
      (DlEvent.fetch :: DlEvent.wait 1000 :: r.1, r.2)

/-- `downloadImage(url, timeout, retries)`: the loop starts with
`attempts = 0`; `retries` is a JavaScript number, modelled as an integer so
that non-positive retry counts behave as in the source (the loop body never
runs and the trailing `return null` is reached). -/
def downloadImage (oracle : Nat → Option (List Nat)) (retries : Int) :
    List DlEvent × Option (List Nat) :=
  dlRun oracle 0 retries.toNat

/-- Number of issued requests in a trace. -/
def countFetches (t : List DlEvent) : Nat :=
  (t.filter (fun e => e matches DlEvent.fetch)).length

/-- The trace of `k` failed attempts, each followed by the fixed 1000 ms
backoff, and one final attempt with no wait after it. -/
def retryTrace : Nat → List DlEvent
  | 0 => [DlEvent.fetch]
  | k + 1 => DlEvent.fetch :: DlEvent.wait 1000 :: retryTrace k

theorem dlRun_all_fail (oracle : Nat → Option (List Nat)) :
    ∀ r k, 0 < r → (∀ j, j < r → oracle (k + j) = none) →
      dlRun oracle k r = (retryTrace (r - 1), none) := by
  intro r
  induction r with
  | zero => intro k h; omega
  | succ n ih =>
    intro k _ hfail
    match n with
    | 0 =>
      have h0 : oracle k = none := by simpa using hfail 0 (by omega)
      simp [dlRun, h0, retryTrace]
    | m + 1 =>
      have h0 : oracle k = none := by simpa using hfail 0 (by omega)
      have ih' := ih (k + 1) (by omega) (fun j hj => by
        have := hfail (j + 1) (by omega)
        simpa [Nat.add_assoc, Nat.add_comm 1 j] using this)
      simp [dlRun, h0, ih', retryTrace]

theorem dlRun_success (oracle : Nat → Option (List Nat)) :
    ∀ k r k0 b, k < r → (∀ j, j < k → oracle (k0 + j) = none) →
      oracle (k0 + k) = some b →
      dlRun oracle k0 r = (retryTrace k, some b) := by
  intro k
  induction k with
  | zero =>
    intro r k0 b hr _ hok
    simp only [Nat.add_zero] at hok
    match r, hr with
    | 1, _ => simp [dlRun, hok, retryTrace]
    | m + 2, _ => simp [dlRun, hok, retryTrace]
  | succ n ih =>
    intro r k0 b hr hfail hok
    match r, hr with
    | m + 2, _ =>
      have h0 : oracle k0 = none := by simpa using hfail 0 (by omega)
      have ih' := ih (m + 1) (k0 + 1) b (by omega)
        (fun j hj => by
          have := hfail (j + 1) (by omega)
          simpa [Nat.add_assoc, Nat.add_comm 1 j] using this)
        (by simpa [Nat.add_assoc, Nat.add_comm 1 n] using hok)
      simp [dlRun, h0, ih', retryTrace]

theorem dlRun_fetch_bound (oracle : Nat → Option (List Nat)) :
    ∀ r k, countFetches (dlRun oracle k r).1 ≤ r := by
  intro r
  induction r with
  | zero => intro k; simp [dlRun, countFetches]
  | succ n ih =>
    intro k
    match n with
    | 0 =>
      cases h : oracle k <;> simp [dlRun, h, countFetches]
    | m + 1 =>
      cases h : oracle k with
      | some b => simp [dlRun, h, countFetches]
      | none =>
        have := ih (k + 1)
        simp only [dlRun, h, countFetches, List.filter] at this ⊢
        simpa using Nat.succ_le_succ this

/-! ## URL parsing

The source calls the WHATWG `new URL(...)` to read `hostname` and
`pathname`, catching the exception it throws on malformed input.  The model
below covers the http/https URLs the call sites can produce (every URL fed
to it comes from a regex group that starts with the literal `http://` or
`https://`); other inputs are reported as a parse failure, which the source
handles through its catch branches.  WHATWG percent/punycode normalisation
of host names is not modelled. -/

structure UrlObj where
  hostname : Str
  pathname : Str
deriving DecidableEq, Repr

/-- Splits `hostport` into the hostname, checking that the port (if any)
is all digits as `new URL` requires; `[`-bracketed IPv6 hosts keep their
brackets, as in the WHATWG `hostname` getter. -/
def splitHostPort (hostport : Str) : Option Str :=
  match hostport with
  | '[' :: rest =>
    let inner := rest.takeWhile (fun c => c ≠ ']')
    (match rest.drop inner.length with
     | ']' :: tail =>
       match tail with
       | [] => some ('[' :: inner ++ [(']' : Char)])
       | ':' :: port => if port.all isDigitCh then some ('[' :: inner ++ [(']' : Char)]) else none
       | _ => none
     | _ => none)
  | _ =>
    let host := hostport.takeWhile (fun c => c ≠ ':')
    match hostport.drop host.length with
    | [] => some host
    | ':' :: port => if port.all isDigitCh then some host else none
    | _ => none

/-- The pathname component: the part of the tail from the leading `/` up to
the query or fragment, or `/` when the authority is immediately followed by
the query, the fragment or the end of the URL. -/
def pathnameOf (tail : Str) : Str :=
  match tail with
  | '/' :: _ => tail.takeWhile (fun c => c ≠ '?' ∧ c ≠ '#')
  | _ => ['/']

/-- Model of `new URL(url)` restricted to the fields the source reads. -/
def parseUrl (url : Str) : Option UrlObj :=
  let afterScheme? :=
    match dropLit (str "https://") url with
    | some r => some r
    | none => dropLit (str "http://") url
  match afterScheme? with
  | none => none
  | some rest =>
    let authority := rest.takeWhile (fun c => c ≠ '/' ∧ c ≠ '?' ∧ c ≠ '#')
    if authority = [] then none
    else
      let tail := rest.drop authority.length
      let hostport := lastGetD (splitOnCharL '@' authority) authority
      if hostport = [] then none
      else
        match splitHostPort hostport with
        | none => none
        | some host =>
          if host = [] then none
          else some { hostname := lower host, pathname := pathnameOf tail }

/-! ## `decodeURIComponent`

Used by `getFileExtension` on nested proxy URLs; it throws on a malformed
escape sequence or invalid UTF-8, which the source catches and then keeps
the original string.  The model returns `none` exactly for the throwing
cases. -/

def hexDigitVal (c : Char) : Option Nat :=
  if '0' ≤ c ∧ c ≤ '9' then some (c.toNat - 48)
  else if 'a' ≤ c ∧ c ≤ 'f' then some (c.toNat - 87)
  else if 'A' ≤ c ∧ c ≤ 'F' then some (c.toNat - 55)
  else none

/-- Reads the maximal run of `%XX` escapes at the head of the string,
failing on a `%` that is not followed by two hex digits. -/
def pctRun : Str → Option (List Nat × Str)
  | '%' :: rest =>
    (match rest with
     | h :: l :: rest2 =>
       match hexDigitVal h, hexDigitVal l with
       | some a, some b => (pctRun rest2).map (fun p => ((a * 16 + b) :: p.1, p.2))
       | _, _ => none
     | _ => none)
  | cs => some ([], cs)

def isContByte (b : Nat) : Bool := 0x80 ≤ b && b ≤ 0xbf

/-- Strict UTF-8 decoding of a byte run, fuelled by the number of bytes
(overlong encodings, surrogates and out-of-range code points are rejected,
as `decodeURIComponent` does). -/
def utf8DecodeGo : Nat → List Nat → Option Str
  | 0, _ => none
  | _ + 1, [] => some []
  | fuel + 1, b :: rest =>
    if b < 0x80 then (utf8DecodeGo fuel rest).map (fun t => Char.ofNat b :: t)
    else if 0xc2 ≤ b ∧ b ≤ 0xdf then
      match rest with
      | c1 :: rest2 =>
        if isContByte c1 then
          (utf8DecodeGo fuel rest2).map
            (fun t => Char.ofNat ((b - 0xc0) * 64 + (c1 - 0x80)) :: t)
        else none
      | _ => none
    else if 0xe0 ≤ b ∧ b ≤ 0xef then
      match rest with
      | c1 :: c2 :: rest2 =>
        if isContByte c1 ∧ isContByte c2 then
          let cp := (b - 0xe0) * 4096 + (c1 - 0x80) * 64 + (c2 - 0x80)
          if 0x800 ≤ cp ∧ ¬ (0xd800 ≤ cp ∧ cp ≤ 0xdfff) then
            (utf8DecodeGo fuel rest2).map (fun t => Char.ofNat cp :: t)
          else none
        else none
      | _ => none
    else if 0xf0 ≤ b ∧ b ≤ 0xf4 then
      match rest with
      | c1 :: c2 :: c3 :: rest2 =>
        if isContByte c1 ∧ isContByte c2 ∧ isContByte c3 then
          let cp := (b - 0xf0) * 262144 + (c1 - 0x80) * 4096 + (c2 - 0x80) * 64 + (c3 - 0x80)
          if 0x10000 ≤ cp ∧ cp ≤ 0x10ffff then
            (utf8DecodeGo fuel rest2).map (fun t => Char.ofNat cp :: t)
          else none
        else none
      | _ => none
    else none

def utf8Decode (bs : List Nat) : Option Str := utf8DecodeGo (bs.length + 1) bs

/-- Fuelled main loop of `decodeURIComponent`: literal characters pass
through, each maximal `%XX` run is UTF-8 decoded. -/
def decodeGo : Nat → Str → Option Str
  | 0, _ => none
  | _ + 1, [] => some []
  | fuel + 1, '%' :: rest =>
    (match pctRun ('%' :: rest) with
     | none => none
     | some (bs, r) =>
       match utf8Decode bs, decodeGo fuel r with
       | some cs, some t => some (cs ++ t)
       | _, _ => none)
  | fuel + 1, c :: rest => (decodeGo fuel rest).map (fun t => c :: t)

def decodeURIComponentL (s : Str) : Option Str := decodeGo (s.length + 1) s

/-! ## `getFileExtension` (src/utils.ts lines 237-368)

Each regex stage of the source is modelled by a deterministic matcher with
the backtracking behaviour of the original pattern worked out (greedy runs
over a character class that excludes the following delimiter cannot
backtrack, so each stage is a plain scan for the earliest viable start). -/

/-- Match of `/\.([a-zA-Z0-9]+)$/i` against a path segment: the maximal
trailing alphanumeric run, which must be nonempty and preceded by a dot. -/
def trailingAlnumExt (seg : Str) : Option Str :=
  let rev := seg.reverse
  let run := rev.takeWhile isAlnumCh
  if run ≠ [] ∧ (rev.drop run.length).head? = some '.' then
    some (lower run.reverse)
  else none

/-- Stage 1, `/\/([^\/?#]+)[^\/?#]*$/`: the match can only start at the last
`/` of the URL and requires everything after it to be free of `/`, `?`, `#`
and nonempty; its group 1 is that whole final segment. -/
def extFromPath (url : Str) : Option Str :=
  if url.contains '/' then
    let seg := afterLastSlash url
    if seg ≠ [] ∧ seg.all (fun c => c ≠ '?' ∧ c ≠ '#') then
      trailingAlnumExt seg
    else none
  else none

/-- Earliest match of `/[?&]key...([a-zA-Z0-9]+)/i` (the literal `key=`
passed already contains the `=`): a `?` or `&`, the literal, then a
nonempty alphanumeric run, lowercased. -/
def paramAlnumValue (key : Str) (url : Str) : Option Str :=
  firstSome (fun cs =>
    match cs with
    | c :: rest =>
      if c = '?' ∨ c = '&' then
        match dropLitCI key rest with
        | some r =>
          let run := r.takeWhile isAlnumCh
          if run = [] then none else some (lower run)
        | none => none
      else none
    | [] => none) url

/-- Match of `/\.([a-zA-Z0-9]+)(?:[\?#].*)?$/i` at one position: a dot, a
maximal nonempty alphanumeric run, then either the end of the string or a
`?`/`#` whose remainder contains no line terminator (`.` does not match
them, so the optional group cannot span one). -/
def extTrailingQueryAt (cs : Str) : Option Str :=
  match cs with
  | '.' :: rest =>
    let run := rest.takeWhile isAlnumCh
    if run = [] then none
    else
      match rest.drop run.length with
      | [] => some (lower run)
      | c :: tail =>
        if (c = '?' ∨ c = '#') ∧ tail.all jsDot then some (lower run) else none
  | _ => none

/-- Stages 3 and 4's extension probe, `/\.([a-zA-Z0-9]+)(?:[\?#].*)?$/i`,
searched from the earliest position. -/
def extWithTrailingQuery (s : Str) : Option Str := firstSome extTrailingQueryAt s

/-- Tries each case-insensitive literal in regex alternation order,
returning the remainder after the first that fits. -/
def dropAnyLitCI (lits : List Str) (cs : Str) : Option Str :=
  match lits with
  | [] => none
  | l :: ls =>
    match dropLitCI l cs with
    | some r => some r
    | none => dropAnyLitCI ls cs

/-- Consumes `https?` followed by the given case-insensitive suffix literal
(greedy `s?` with its backtracking), returning the consumed source text and
the remainder. -/
def dropSchemeWith (suffix : Str) (cs : Str) : Option (Str × Str) :=
  match dropLitCI (str "http") cs with
  | none => none
  | some r =>
    match r with
    | s :: r2 =>
      if s = 's' ∨ s = 'S' then
        match dropLitCI suffix r2 with
        | some r3 => some (cs.take (cs.length - r3.length), r3)
        | none =>
          match dropLitCI suffix r with
          | some r3 => some (cs.take (cs.length - r3.length), r3)
          | none => none
      else
        match dropLitCI suffix r with
        | some r3 => some (cs.take (cs.length - r3.length), r3)
        | none => none
    | [] => none

/-- Nested-URL pattern 1, `/[?&](url|src|image)=(https?%3A[^&]+)/i`,
returning group 2. -/
def nestedP1 (url : Str) : Option Str :=
  firstSome (fun cs =>
    match cs with
    | c :: rest =>
      if c = '?' ∨ c = '&' then
        match dropAnyLitCI [str "url=", str "src=", str "image="] rest with
        | some r =>
          (match dropSchemeWith (str "%3a") r with
           | some (consumed, r2) =>
             let run := r2.takeWhile (fun c => c ≠ '&')
             if run = [] then none else some (consumed ++ run)
           | none => none)
        | none => none
      else none
    | [] => none) url

/-- Nested-URL pattern 2, `/[?&](url|src|image)=([^&]+)/i`, group 2. -/
def nestedP2 (url : Str) : Option Str :=
  firstSome (fun cs =>
    match cs with
    | c :: rest =>
      if c = '?' ∨ c = '&' then
        match dropAnyLitCI [str "url=", str "src=", str "image="] rest with
        | some r =>
          let run := r.takeWhile (fun c => c ≠ '&')
          if run = [] then none else some run
        | none => none
      else none
    | [] => none) url

/-- Nested-URL pattern 3, `/\/(https?%3A%2F%2F[^&\/?#]+)/i`, group 1. -/
def nestedP3 (url : Str) : Option Str :=
  firstSome (fun cs =>
    match cs with
    | '/' :: rest =>
      (match dropSchemeWith (str "%3a%2f%2f") rest with
       | some (consumed, r2) =>
         let run := r2.takeWhile (fun c => c ≠ '&' ∧ c ≠ '/' ∧ c ≠ '?' ∧ c ≠ '#')
         if run = [] then none else some (consumed ++ run)
       | none => none)
    | _ => none) url

/-- Nested-URL pattern 4, `/\/(https?:\/\/[^&\/?#]+)/i`, group 1. -/
def nestedP4 (url : Str) : Option Str :=
  firstSome (fun cs =>
    match cs with
    | '/' :: rest =>
      (match dropSchemeWith (str "://") rest with
       | some (consumed, r2) =>
         let run := r2.takeWhile (fun c => c ≠ '&' ∧ c ≠ '/' ∧ c ≠ '?' ∧ c ≠ '#')
         if run = [] then none else some (consumed ++ run)
       | none => none)
    | _ => none) url

/-- Nested query probe `/[?&](type|format)=([a-zA-Z0-9]+)/i`, group 2. -/
def nestedQueryTypeFormat (s : Str) : Option Str :=
  firstSome (fun cs =>
    match cs with
    | c :: rest =>
      if c = '?' ∨ c = '&' then
        match dropAnyLitCI [str "type=", str "format="] rest with
        | some r =>
          let run := r.takeWhile isAlnumCh
          if run = [] then none else some (lower run)
        | none => none
      else none
    | [] => none) s

/-- Per-candidate processing of the nested-URL loop (lines 292-330): decode
when a `%` is present (keeping the original on a decoding error), then try
the tail extension probe and, when the candidate has a query, the
`type`/`format` probe. -/
def nestedCandidateExt (captured : Str) : Option Str :=
  let decoded :=
    if captured.contains '%' then (decodeURIComponentL captured).getD captured
    else captured
  match extWithTrailingQuery decoded with
  | some e => some e
  | none =>
    if decoded.contains '?' then nestedQueryTypeFormat decoded else none

/-- Stage 4, the nested-URL loop: patterns are tried in source order and the
loop moves to the next pattern when a pattern matches but yields no
extension. -/
def extFromNested (url : Str) : Option Str :=
  match nestedP1 url >>= nestedCandidateExt with
  | some e => some e
  | none =>
    match nestedP2 url >>= nestedCandidateExt with
    | some e => some e
    | none =>
      match nestedP3 url >>= nestedCandidateExt with
      | some e => some e
      | none => nestedP4 url >>= nestedCandidateExt

/-- Tries each value literal in alternation order; the source lowercases the
captured text, so the canonical lowercase value is returned. -/
def matchAnyValCI (vals : List Str) (cs : Str) : Option Str :=
  match vals with
  | [] => none
  | v :: vs => if (dropLitCI v cs).isSome then some v else matchAnyValCI vs cs

/-- Stage 5, `/[?&;](cf|fmt|format|type)=(webp|png|jpg|jpeg|gif|avif)/i`,
group 2. -/
def formatInParamValue (url : Str) : Option Str :=
  firstSome (fun cs =>
    match cs with
    | c :: rest =>
      if c = '?' ∨ c = '&' ∨ c = ';' then
        match dropAnyLitCI [str "cf=", str "fmt=", str "format=", str "type="] rest with
        | some r =>
          matchAnyValCI
            [str "webp", str "png", str "jpg", str "jpeg", str "gif", str "avif"] r
        | none => none
      else none
    | [] => none) url

/-- The image-extension alternation shared by several patterns, in source
order. -/
def imageExtLits : List Str :=
  [str "png", str "jpg", str "jpeg", str "gif", str "webp", str "svg",
   str "awebp", str "bmp", str "tiff", str "avif"]

/-- Value alternation followed by a required delimiter class. -/
def matchAnyValCIDelim (vals : List Str) (delims : List Char) (cs : Str) : Option Str :=
  match vals with
  | [] => none
  | v :: vs =>
    match dropLitCI v cs with
    | some r =>
      (match r.head? with
       | some d => if delims.contains d then some v else matchAnyValCIDelim vs delims cs
       | none => matchAnyValCIDelim vs delims cs)
    | none => matchAnyValCIDelim vs delims cs

/-- Stage 6,
`/\/(\w+\.(png|jpg|jpeg|gif|webp|svg|awebp|bmp|tiff|avif))[\/\?#&]/i`,
group 2: a slash, a maximal word run, a dot, an image extension and a
delimiter. -/
def extFromComplexPath (url : Str) : Option Str :=
  firstSome (fun cs =>
    match cs with
    | '/' :: rest =>
      let run := rest.takeWhile isWordCh
      if run = [] then none
      else
        (match rest.drop run.length with
         | '.' :: r2 => matchAnyValCIDelim imageExtLits ['/', '?', '#', '&'] r2
         | _ => none)
    | _ => none) url

/-- The extension stages of `getFileExtension` before the default and the
webp normalisation, in source order; `[]` means no stage matched. -/
def urlExtensionCore (url : Str) : Str :=
  match extFromPath url with
  | some e => e
  | none =>
    match paramAlnumValue (str "type=") url with
    | some e => e
    | none =>
      match paramAlnumValue (str "format=") url with
      | some e => e
      | none =>
        match extWithTrailingQuery url with
        | some e => e
        | none =>
          match extFromNested url with
          | some e => e
          | none =>
            match formatInParamValue url with
            | some e => e
            | none =>
              match extFromComplexPath url with
              | some e => e
              | none => []

/-- `getFileExtension(url)` (lines 237-368): the staged extraction, a `jpg`
default when nothing matched, and the `awebp`/`webp` → `jpg` normalisation. -/
def getFileExtension (url : Str) : Str :=
  let e := urlExtensionCore url
  let e := if e = [] then str "jpg" else e
  if e = str "awebp" then str "jpg"
  else if e = str "webp" then str "jpg"
  else e

/-! ## URL classifier: `isLikelyImageUrl` (src/utils.ts lines 12-71) -/

/-- `/\.(png|jpg|jpeg|gif|webp|svg|awebp|bmp|tiff|avif)(\?|$|&|#)/i`:
a dot, an image extension and then `?`, `&`, `#` or the end. -/
def imageExtTest (url : Str) : Bool :=
  anySuffix (fun cs =>
    match cs with
    | '.' :: rest =>
      imageExtLits.any (fun e =>
        match dropLitCI e rest with
        | some r => r = [] || r.head? = some '?' || r.head? = some '&' || r.head? = some '#'
        | none => false)
    | _ => false) url

/-- `/[?&]key...(ext alternation)/i` where the value only needs the listed
extension as a prefix. -/
def paramValPrefixTest (key : Str) (url : Str) : Bool :=
  anySuffix (fun cs =>
    match cs with
    | c :: rest =>
      (c = '?' || c = '&') &&
      (match dropLitCI key rest with
       | some r => imageExtLits.any (fun v => (dropLitCI v r).isSome)
       | none => false)
    | [] => false) url

/-- `/[?&;](cf|fmt|format|type)=(webp|png|jpg|jpeg|gif|avif)/i` as a test. -/
def formatInParamTest (url : Str) : Bool :=
  (formatInParamValue url).isSome

def isWordDashDot (c : Char) : Bool := isWordCh c || c = '-' || c = '.'

/-- `/\/(key alternation)\/[\w\-\.]+/i`: a slash, one of the keys, a slash
and at least one `[\w\-.]` character (the `s?` optionals are expanded into
explicit alternatives). -/
def segSlashWordTest (keys : List Str) (url : Str) : Bool :=
  anySuffix (fun cs =>
    match cs with
    | '/' :: rest =>
      keys.any (fun k =>
        match dropLitCI k rest with
        | some ('/' :: c :: _) => isWordDashDot c
        | _ => false)
    | _ => false) url

/-- `imagePathPattern` of line 29. -/
def imagePathTest (url : Str) : Bool :=
  segSlashWordTest
    [str "images", str "image", str "photos", str "photo", str "pictures",
     str "picture", str "media", str "api/res", str "creatr-uploaded-images"] url

/-- `imageHostingPattern` of line 49. -/
def imageHostingTest (url : Str) : Bool :=
  segSlashWordTest
    [str "api/res", str "images", str "image", str "photos", str "photo",
     str "pictures", str "picture", str "media", str "uploads", str "upload",
     str "content", str "assets", str "files", str "file", str "static"] url

/-- `resourceIdPattern` of line 52, `/\/(res|cdn|img|image|photo|media)\/[\d\.]+\//i`:
the digit/dot run is maximal and must be followed by a slash. -/
def resourceIdTest (url : Str) : Bool :=
  anySuffix (fun cs =>
    match cs with
    | '/' :: rest =>
      [str "res", str "cdn", str "img", str "image", str "photo", str "media"].any
        (fun k =>
          match dropLitCI k rest with
          | some ('/' :: r) =>
            let run := r.takeWhile (fun c => isDigitCh c || c = '.')
            run ≠ [] && (r.drop run.length).head? = some '/'
          | _ => false)
    | _ => false) url

/-- Greedy `\d{1,2}` followed by a continuation, with the one-digit
backtrack of the original pattern. -/
def twoDigitsThen (next : Str → Bool) (cs : Str) : Bool :=
  match cs with
  | a :: b :: r =>
    isDigitCh a && (if isDigitCh b then (next r || next (b :: r)) else next (b :: r))
  | [a] => isDigitCh a && next []
  | [] => false

/-- First alternative of `datePathPattern`: `\d{4}(\/|-)\d{1,2}(\/|-)\d{1,2}`
followed by the closing `/`. -/
def dateAlt1 (cs : Str) : Bool :=
  match cs with
  | a :: b :: c :: d :: r =>
    isDigitCh a && isDigitCh b && isDigitCh c && isDigitCh d &&
    (match r with
     | s1 :: r2 =>
       (s1 = '/' || s1 = '-') &&
       twoDigitsThen (fun r3 =>
         match r3 with
         | s2 :: r4 =>
           (s2 = '/' || s2 = '-') &&
           twoDigitsThen (fun r5 => r5.head? = some '/') r4
         | [] => false) r2
     | [] => false)
  | _ => false

/-- Second alternative, `\d{6,14}` followed by `/`: the digit run is forced
maximal, so the run length must lie in `[6, 14]`. -/
def dateAlt2 (cs : Str) : Bool :=
  let run := cs.takeWhile isDigitCh
  6 ≤ run.length && run.length ≤ 14 && (cs.drop run.length).head? = some '/'

/-- `datePathPattern` of line 32,
`/\/(\d{4}(\/|-)\d{1,2}(\/|-)\d{1,2}|\d{6,14})\//i`. -/
def datePathTest (url : Str) : Bool :=
  anySuffix (fun cs =>
    match cs with
    | '/' :: rest => dateAlt1 rest || dateAlt2 rest
    | _ => false) url

/-- `/[?&](url|src|image)=https?%3A/i` (the first nested-URL probe of
`hasNestedUrl`). -/
def nestedParamSchemeTest (url : Str) : Bool :=
  anySuffix (fun cs =>
    match cs with
    | c :: rest =>
      (c = '?' || c = '&') &&
      (match dropAnyLitCI [str "url=", str "src=", str "image="] rest with
       | some r => (dropSchemeWith (str "%3a") r).isSome
       | none => false)
    | [] => false) url

/-- One `[^\/]+\/` group: the maximal slash-free run (nonempty) and its
closing slash. -/
def segSlash (cs : Str) : Option Str :=
  let run := cs.takeWhile (fun c => c ≠ '/')
  if run = [] then none
  else
    match cs.drop run.length with
    | '/' :: r => some r
    | _ => none

/-- `/https?:\/\//i` at the head of the string. -/
def slashHttpAt (cs : Str) : Bool :=
  match cs with
  | '/' :: r => (dropSchemeWith (str "://") r).isSome
  | _ => false

/-- Scan for `\/https?:\/\//` after at least one `.`-matched character. -/
def gapHelper : Str → Bool
  | [] => false
  | c :: rest => slashHttpAt (c :: rest) || (jsDot c && gapHelper rest)

/-- `--.+\/https?:\/\//`: at least one non-line-terminator character between
the `--` and the embedded scheme. -/
def gapThenSlashHttp : Str → Bool
  | [] => false
  | c :: rest => jsDot c && gapHelper rest

/-- The proxy-chain probe of `hasNestedUrl` (line 41): a scheme, four
nonempty slash-free segments each closed by a slash, the literal `--`,
then at least one character and an embedded `/https?://`. -/
def proxyChainTest (url : Str) : Bool :=
  anySuffix (fun cs =>
    match dropSchemeWith (str "://") cs with
    | some (_, r) =>
      (match segSlash r >>= segSlash >>= segSlash >>= segSlash with
       | some ('-' :: '-' :: r2) => gapThenSlashHttp r2
       | _ => false)
    | none => false) url

def isTokenCh (c : Char) : Bool :=
  isAlnumCh c || c = '+' || c = '/' || c = '=' || c = '_' || c = '-'

/-- `/[?&](token|id|data)=[A-Za-z0-9+/=_-]{20,}/i`. -/
def longTokenTest (url : Str) : Bool :=
  anySuffix (fun cs =>
    match cs with
    | c :: rest =>
      (c = '?' || c = '&') &&
      (match dropAnyLitCI [str "token=", str "id=", str "data="] rest with
       | some r => 20 ≤ (r.takeWhile isTokenCh).length
       | none => false)
    | [] => false) url

/-- `hasNestedUrl` (lines 36-43). -/
def hasNestedUrl (url : Str) : Bool :=
  containsSub (str "http") url &&
  (nestedParamSchemeTest url ||
   containsSub (str "/https://") url ||
   containsSub (str "/http://") url ||
   proxyChainTest url ||
   longTokenTest url)

/-- `nestedImagePattern` of line 46, `/\.(png|...)/i` anywhere. -/
def nestedImageTest (url : Str) : Bool :=
  anySuffix (fun cs =>
    match cs with
    | '.' :: rest => imageExtLits.any (fun e => (dropLitCI e rest).isSome)
    | _ => false) url

/-- `/\/\d+(\/$|$)/`: the URL ends in a slash-delimited bare number,
optionally with a trailing slash. -/
def numericIdEndTest (url : Str) : Bool :=
  anySuffix (fun cs =>
    match cs with
    | '/' :: rest =>
      let run := rest.takeWhile isDigitCh
      run ≠ [] && (rest.drop run.length = [] || rest.drop run.length = ['/'])
    | _ => false) url

/-- `imageIdPattern` of line 55, `/[\w\-]{8,}\-[\w\-]{8,}/i`: inside a
maximal `[\w-]` run there is a dash with at least eight run characters on
each side. -/
def imageIdTest (url : Str) : Bool :=
  anySuffix (fun cs =>
    let run := cs.takeWhile (fun c => isWordCh c || c = '-')
    (List.range run.length).any (fun m =>
      8 ≤ m && m + 9 ≤ run.length && run.get? m = some '-')) url

/-- `isLikelyImageUrl(url)` (lines 12-71), combining the heuristics in the
source's order. -/
def isLikelyImageUrl (url : Str) : Bool :=
  imageExtTest url ||
  paramValPrefixTest (str "type=") url ||
  paramValPrefixTest (str "format=") url ||
  formatInParamTest url ||
  imageHostingTest url ||
  resourceIdTest url ||
  (hasNestedUrl url && nestedImageTest url) ||
  (imagePathTest url && (numericIdEndTest url || imageIdTest url)) ||
  (datePathTest url && (anySuffix (fun cs =>
      match cs with
      | '.' :: rest =>
        let run := rest.takeWhile isWordCh
        (run.length = 3 || run.length = 4) && rest.drop run.length = []
      | _ => false) url))

/-! ## Document match grammars (src/utils.ts lines 8-9)

`IMAGE_URL_REGEX = /!\[(.*?)\]\((https?:\/\/[^\s\)]+)\)/g` and
`HTML_IMG_REGEX` are scanned left to right; the lazy groups are modelled by
searching for the earliest viable split, extending on failure of the rest
of the pattern (the regex engine's backtracking), and the greedy character
class runs are forced maximal because the class excludes the following
delimiter. -/

/-- Consumes the case-sensitive `https?:\/\/` (with the greedy `s?`
backtrack), returning the consumed text and the remainder. -/
def dropSchemeCS (cs : Str) : Option (Str × Str) :=
  match cs with
  | 'h' :: 't' :: 't' :: 'p' :: rest =>
    (match rest with
     | 's' :: ':' :: '/' :: '/' :: r => some (str "https://", r)
     | ':' :: '/' :: '/' :: r => some (str "http://", r)
     | _ => none)
  | _ => none

/-- The `(https?:\/\/[^\s\)]+)\)` tail of the Markdown image pattern:
scheme, a nonempty maximal run without whitespace or `)`, then `)`. -/
def tryMdUrl (cs : Str) : Option (Str × Str) :=
  match dropSchemeCS cs with
  | none => none
  | some (consumed, rest) =>
    let body := rest.takeWhile (fun c => ¬ jsSpace c ∧ c ≠ ')')
    if body = [] then none
    else
      match rest.drop body.length with
      | ')' :: r => some (consumed ++ body, r)
      | _ => none

/-- Lazy search for the `](`-delimited end of the alt group: the shortest
alt (of `.`-matched characters) whose following `](` is followed by a
matching URL tail wins; on failure the alt is extended.  Fuelled by the
text length (every step consumes at least one character). -/
def findAltSplit : Nat → Str → Option (Str × Str × Str)
  | 0, _ => none
  | fuel + 1, cs =>
    match cs with
    | ']' :: '(' :: u =>
      (match tryMdUrl u with
       | some (url, rest) => some ([], url, rest)
       | none =>
         match findAltSplit fuel ('(' :: u) with
         | some (alt, url, rest) => some (']' :: alt, url, rest)
         | none => none)
    | c :: t =>
      if jsDot c then
        match findAltSplit fuel t with
        | some (alt, url, rest) => some (c :: alt, url, rest)
        | none => none
      else none
    | [] => none

/-- One attempt of `IMAGE_URL_REGEX` at the current position, returning the
alt group, the URL group and the remainder after the match. -/
def mdMatchAt (cs : Str) : Option (Str × Str × Str) :=
  match cs with
  | '!' :: '[' :: t => findAltSplit (t.length + 1) t
  | _ => none

/-- The `https?:\/\/[^\s"']+["']` tail of the HTML pattern. -/
def tryHtmlUrl (cs : Str) : Option (Str × Str) :=
  match dropSchemeCS cs with
  | none => none
  | some (consumed, rest) =>
    let body := rest.takeWhile (fun c => ¬ jsSpace c ∧ c ≠ '"' ∧ c ≠ '\'')
    if body = [] then none
    else
      match rest.drop body.length with
      | c :: r => if c = '"' ∨ c = '\'' then some (consumed ++ body, r) else none
      | [] => none

/-- `src=["']` followed by the URL tail, at the current position. -/
def tryAtSrc (cs : Str) : Option (Str × Str) :=
  match cs with
  | 's' :: 'r' :: 'c' :: '=' :: q :: rest =>
    if q = '"' ∨ q = '\'' then tryHtmlUrl rest else none
  | _ => none

/-- Lazy `.*?src=["']...`: earliest viable `src=` wins, the gap consists of
`.`-matched characters. -/
def findSrc : Str → Option (Str × Str)
  | [] => none
  | c :: cs =>
    match tryAtSrc (c :: cs) with
    | some r => some r
    | none => if jsDot c then findSrc cs else none

/-- Lazy `.*?>`: the first `>` after a `.`-matched gap. -/
def findGt : Str → Option Str
  | [] => none
  | '>' :: r => some r
  | c :: r => if jsDot c then findGt r else none

/-- One attempt of `HTML_IMG_REGEX` at the current position, returning the
URL group, the whole matched text and the remainder. -/
def htmlMatchAt (cs : Str) : Option (Str × Str × Str) :=
  match cs with
  | '<' :: 'i' :: 'm' :: 'g' :: t =>
    (match findSrc t with
     | some (url, afterQ) =>
       match findGt afterQ with
       | some rest => some (url, cs.take (cs.length - rest.length), rest)
       | none => none
     | none => none)
  | _ => none

/-- `match.match(/alt=["']([^"']*)["']/)` at one position (the closing
quote need not agree with the opening one, exactly as in the source). -/
def tryAltAt (cs : Str) : Option Str :=
  match cs with
  | 'a' :: 'l' :: 't' :: '=' :: q :: rest =>
    if q = '"' ∨ q = '\'' then
      let body := rest.takeWhile (fun c => c ≠ '"' ∧ c ≠ '\'')
      match rest.drop body.length with
      | c :: _ => if c = '"' ∨ c = '\'' then some body else none
      | [] => none
    else none
  | _ => none

/-- Alt text extracted from an HTML tag, defaulting to the empty string
(imageProcessor lines 154-155). -/
def extractAlt (matchText : Str) : Str := (firstSome tryAltAt matchText).getD []

/-- True when `IMAGE_URL_REGEX` matches somewhere in the text. -/
def hasMdMatch : Str → Bool
  | [] => false
  | c :: cs => (mdMatchAt (c :: cs)).isSome || hasMdMatch cs

/-- True when `HTML_IMG_REGEX` matches somewhere in the text. -/
def hasHtmlMatch : Str → Bool
  | [] => false
  | c :: cs => (htmlMatchAt (c :: cs)).isSome || hasHtmlMatch cs

/-! ## Settings (src/settings.ts) and the vault adapter -/

structure SaveImagesOfflineSettings where
  autoDownloadImages : Bool
  downloadOnPaste : Bool
  imageFolder : Str
  useMD5ForFilenames : Bool
  convertPngToJpeg : Bool
  jpegQuality : Int
  maxDownloadRetries : Int
  downloadTimeout : Int
  ignoredDomains : Str
  logLevel : Nat
deriving DecidableEq, Repr

/-- `DEFAULT_SETTINGS` of src/settings.ts (`logLevel` is `ERROR`). -/
def DEFAULT_SETTINGS : SaveImagesOfflineSettings where
  autoDownloadImages := true
  downloadOnPaste := true
  imageFolder := str "attachments"
  useMD5ForFilenames := true
  convertPngToJpeg := false
  jpegQuality := 85
  maxDownloadRetries := 3
  downloadTimeout := 30000
  ignoredDomains := []
  logLevel := 0

/-- The vault seen through `vault.adapter.exists`, `vault.createBinary` and
`vault.createFolder`. -/
structure Vault where
  files : List (Str × List Nat)
  folders : List Str
deriving DecidableEq, Repr

def vaultExists (v : Vault) (p : Str) : Bool :=
  v.files.any (fun f => f.1 == p) || v.folders.any (fun q => q == p)

def createBinary (v : Vault) (p : Str) (data : List Nat) : Vault where
  files := (p, data) :: v.files
  folders := v.folders

def createFolder (v : Vault) (p : Str) : Vault where
  files := v.files
  folders := p :: v.folders

/-- Loop of `ensureFolderExists` (src/utils.ts lines 375-385). -/
def ensureFolderGo (v : Vault) (current : Str) : List Str → Vault
  | [] => v
  | seg :: rest =>
    let next := if current = [] then seg else current ++ '/' :: seg
    let v := if vaultExists v next then v else createFolder v next
    ensureFolderGo v next rest

def ensureFolderExists (v : Vault) (folderPath : Str) : Vault :=
  ensureFolderGo v [] ((splitOnCharL '/' folderPath).filter (fun p => p.length > 0))

/-- The external collaborators: the network (indexed by URL and attempt
number), the canvas PNG→JPEG transcoder (`none` models a thrown conversion
error) and Node's MD5 hex digest. -/
structure Ext where
  fetch : Str → Nat → Option (List Nat)
  convert : List Nat → Int → Option (List Nat)
  md5 : List Nat → Str

/-! ## `downloadAndSaveImage` (src/imageProcessor.ts lines 179-352) -/

def byteIs (bytes : List Nat) (i : Nat) (v : Nat) : Bool := bytes.get? i == some v

/-- Binary signature sniffing over `new Uint8Array(imageData.slice(0, 12))`
(lines 206-231); out-of-range reads yield `undefined`, which compares
unequal to every byte value, so they are modelled by `get?`. -/
def sniffExtension (bytes : List Nat) : Str :=
  if byteIs bytes 0 0x89 && byteIs bytes 1 0x50 && byteIs bytes 2 0x4e && byteIs bytes 3 0x47 then
    str "png"
  else if byteIs bytes 0 0xff && byteIs bytes 1 0xd8 then str "jpg"
  else if byteIs bytes 0 0x47 && byteIs bytes 1 0x49 && byteIs bytes 2 0x46 then str "gif"
  else if byteIs bytes 0 0x52 && byteIs bytes 1 0x49 && byteIs bytes 2 0x46 && byteIs bytes 3 0x46 then
    if byteIs bytes 8 0x57 && byteIs bytes 9 0x45 && byteIs bytes 10 0x42 && byteIs bytes 11 0x50 then
      str "jpg"
    else str "jpg"
  else if byteIs bytes 0 0x42 && byteIs bytes 1 0x4d then str "bmp"
  else []

/-- Extension resolution of lines 201-251: the URL-derived extension, the
sniffed override, the `jpg` default and the `awebp` special case. -/
def resolveExtension (url : Str) (bytes : List Nat) : Str :=
  let fileExtension := getFileExtension url
  let detected := sniffExtension bytes
  let fileExtension :=
    if detected ≠ [] ∧ detected ≠ fileExtension then detected else fileExtension
  let fileExtension := if fileExtension = [] then str "jpg" else fileExtension
  if fileExtension = str "awebp" then str "jpg" else fileExtension

/-- Lines 253-262: optional PNG→JPEG conversion; a conversion error leaves
both the bytes and the extension untouched. -/
def applyPngConversion (E : Ext) (s : SaveImagesOfflineSettings)
    (data : List Nat) (ext : Str) : List Nat × Str :=
  if s.convertPngToJpeg ∧ lower ext = str "png" then
    match E.convert data s.jpegQuality with
    | some j => (j, str "jpg")
    | none => (data, ext)
  else (data, ext)

/-- Final bytes and extension entering the filename step. -/
def resolvedPair (E : Ext) (s : SaveImagesOfflineSettings)
    (url : Str) (data : List Nat) : List Nat × Str :=
  applyPngConversion E s data (resolveExtension url data)

/-- `sanitizeFilename` (src/utils.ts lines 228-230). -/
def sanitizeFilename (filename : Str) : Str :=
  filename.map (fun c =>
    if c = '\\' ∨ c = '/' ∨ c = ':' ∨ c = '*' ∨ c = '?' ∨ c = '"' ∨ c = '<' ∨ c = '>' ∨ c = '|'
    then '_' else c)

/-- `/^[0-9a-f]{8,}$/i`. -/
def isHexLike (seg : Str) : Bool :=
  8 ≤ seg.length &&
  seg.all (fun c => isDigitCh c || ('a' ≤ c && c ≤ 'f') || ('A' ≤ c && c ≤ 'F'))

/-- `/^\d+$/`. -/
def isAllDigits (seg : Str) : Bool := seg ≠ [] && seg.all isDigitCh

/-- `segment.replace(/\.[^.]+$/, '')`: drops the final dot-led extension
when the part after the last dot is nonempty. -/
def stripLastExt (seg : Str) : Str :=
  let rev := seg.reverse
  let run := rev.takeWhile (fun c => c ≠ '.')
  if run ≠ [] ∧ (rev.drop run.length).head? = some '.' then
    (rev.drop (run.length + 1)).reverse
  else seg

/-- The backwards loop of lines 280-288: the last segment that does not
look like a hash or a bare id, with its extension stripped. -/
def findMeaningfulSeg : List Str → Str
  | [] => []
  | seg :: rest =>
    if ¬ isHexLike seg ∧ ¬ isAllDigits seg then stripLastExt seg
    else findMeaningfulSeg rest

/-- Lines 270-298: the human-readable fragment for hash-based names; a URL
parse failure is caught and leaves the fragment empty. -/
def meaningfulNameFromUrl (url : Str) : Str :=
  match parseUrl url with
  | none => []
  | some u =>
    let pathSegments := (splitOnCharL '/' u.pathname).filter (fun seg => seg.length > 0)
    let m := findMeaningfulSeg pathSegments.reverse
    if m ≠ [] then m
    else u.hostname.map (fun c => if c = '.' then '-' else c)

/-- Node `path.basename` on a POSIX path: trailing slashes dropped, then
the part after the last slash. -/
def pathBasename (p : Str) : Str :=
  let trimmed := (p.reverse.dropWhile (fun c => c = '/')).reverse
  if trimmed = [] then [] else afterLastSlash trimmed

/-- The hash-based branch of filename generation (lines 266-310): sanitized
and truncated meaningful fragment plus the first eight hash characters, or
the bare hash when no fragment was found. -/
def hashBasedName (E : Ext) (url : Str) (finalData : List Nat) (ext : Str) : Str :=
  let hash := E.md5 finalData
  let meaningful := meaningfulNameFromUrl url
  if meaningful ≠ [] then
    let m := sanitizeFilename meaningful
    let m := if 30 < m.length then m.take 30 else m
    m ++ '-' :: hash.take 8 ++ '.' :: ext
  else hash ++ '.' :: ext

/-- The original-name branch (lines 311-322): the sanitized URL basename,
with the extension appended when the name has no dot; `none` models the
uncaught `new URL` throw of line 313, which the outer catch turns into a
failure. -/
def originalName (url : Str) (ext : Str) : Option Str :=
  match parseUrl url with
  | none => none
  | some u =>
    let filename := sanitizeFilename (pathBasename u.pathname)
    some (if ¬ filename.contains '.' then filename ++ '.' :: ext else filename)

/-- Filename generation (lines 264-328) including the final missing-dot
safety net of lines 324-328. -/
def generateFilename (E : Ext) (s : SaveImagesOfflineSettings)
    (url : Str) (finalData : List Nat) (ext : Str) : Option Str :=
  let filename? :=
    if s.useMD5ForFilenames then some (hashBasedName E url finalData ext)
    else originalName url ext
  match filename? with
  | none => none
  | some filename =>
    some (if ¬ filename.contains '.' then filename ++ '.' :: ext else filename)

/-- Lines 330-334: `basePath` with a slash joined to the filename. -/
def joinPath (basePath filename : Str) : Str :=
  if basePath.getLast? = some '/' then basePath ++ filename
  else basePath ++ '/' :: filename

/-- The `downloadImage` call of lines 188-192 with its event trace. -/
def dlOutcome (E : Ext) (s : SaveImagesOfflineSettings) (url : Str) :
    List DlEvent × Option (List Nat) :=
  downloadImage (E.fetch url) s.maxDownloadRetries

/-- The filename produced for a successfully downloaded image. -/
def pipelineFilename (E : Ext) (s : SaveImagesOfflineSettings)
    (url : Str) (data : List Nat) : Option Str :=
  generateFilename E s url (resolvedPair E s url data).1 (resolvedPair E s url data).2

inductive SaveResult where
  | ok : Str → SaveResult
  | err : SaveResult
deriving DecidableEq, Repr

/-- `downloadAndSaveImage` (lines 179-352): returns the result, the updated
vault and the number of network requests issued.  A file already present at
the computed path short-circuits the write (lines 336-340). -/
def downloadAndSaveImage (E : Ext) (url : Str) (vault : Vault)
    (s : SaveImagesOfflineSettings) (basePath : Str) : SaveResult × Vault × Nat :=
  let out := dlOutcome E s url
  let n := countFetches out.1
  match out.2 with
  | none => (SaveResult.err, vault, n)
  | some imageData =>
    match pipelineFilename E s url imageData with
    | none => (SaveResult.err, vault, n)
    | some filename =>
      let localPath := joinPath basePath filename
      if vaultExists vault localPath then (SaveResult.ok localPath, vault, n)
      else
        (SaveResult.ok localPath,
         createBinary vault localPath (resolvedPair E s url imageData).1, n)

/-! ## `isIgnoredDomain` (src/utils.ts lines 402-417) -/

/-- The configured domains, split on commas, trimmed and lowercased. -/
def parsedIgnoredList (ignoredDomains : Str) : List Str :=
  (splitOnCharL ',' ignoredDomains).map (fun d => lower (jsTrim d))

/-- `isIgnoredDomain(url, ignoredDomains)`: false on an empty setting or a
URL parse failure; otherwise an exact hostname match or a
`.domain`-suffix match against some configured entry. -/
def isIgnoredDomain (url : Str) (ignoredDomains : Str) : Bool :=
  if ignoredDomains = [] then false
  else
    match parseUrl url with
    | none => false
    | some u =>
      (parsedIgnoredList ignoredDomains).any (fun d =>
        u.hostname == d || jsEndsWith u.hostname ('.' :: d))

/-! ## `processContent` (src/imageProcessor.ts lines 64-169)

The two `replaceAsync` passes run the regex over the unchanged input to
collect matches, resolve each match to its replacement, and splice the
replacements back in match order; this is modelled as a single left-to-
right stateful replacement pass per grammar.  The processing statistics,
the vault and the number of network requests are threaded as explicit
state. -/

structure Stats where
  total : Nat
  downloaded : Nat
  failed : Nat
  skipped : Nat
deriving DecidableEq, Repr

structure PState where
  stats : Stats
  vault : Vault
  netFetches : Nat
deriving DecidableEq, Repr

/-- Lines 71-87: the base folder for saving images. -/
def computeBasePath (file : Option Str) (s : SaveImagesOfflineSettings) : Str :=
  match file with
  | some f =>
    let basePath := dirPrefixOf f
    if s.imageFolder ≠ [] then basePath ++ s.imageFolder else basePath
  | none => s.imageFolder

/-- Lines 115-123: note-relative rewriting of the stored path for the
Markdown grammar. -/
def relativizeForNote (file : Option Str) (localPath : Str) : Str :=
  match file with
  | some f =>
    let notePath := dirPrefixOf f
    if notePath.isPrefixOf localPath then
      collapseDoubleSlash (localPath.drop notePath.length)
    else localPath
  | none => localPath

/-- The Markdown per-match callback (lines 93-130).  The branch condition
`result.success && result.localPath` treats an empty path string as falsy,
hence the extra `localPath ≠ []` test on the success arm. -/
def mdHandle (E : Ext) (s : SaveImagesOfflineSettings) (file : Option Str)
    (basePath alt url : Str) (st : PState) : Str × PState :=
  let matchText := str "![" ++ alt ++ str "](" ++ url ++ str ")"
  if ¬ isLikelyImageUrl url then (matchText, st)
  else
    let st := { st with stats := { st.stats with total := st.stats.total + 1 } }
    if isIgnoredDomain url s.ignoredDomains then
      (matchText, { st with stats := { st.stats with skipped := st.stats.skipped + 1 } })
    else
      let r := downloadAndSaveImage E url st.vault s basePath
      let st := { st with vault := r.2.1, netFetches := st.netFetches + r.2.2 }
      match r.1 with
      | SaveResult.ok localPath =>
        if localPath ≠ [] then
          let imagePath := relativizeForNote file localPath
          (str "![" ++ alt ++ str "](" ++ imagePath ++ str ")",
           { st with stats := { st.stats with downloaded := st.stats.downloaded + 1 } })
        else
          (matchText, { st with stats := { st.stats with failed := st.stats.failed + 1 } })
      | SaveResult.err =>
        (matchText, { st with stats := { st.stats with failed := st.stats.failed + 1 } })

/-- The HTML per-match callback (lines 133-166): the alt comes from an
`alt="..."` scan of the matched tag and the path is the bare filename,
`result.localPath.split('/').pop()`. -/
def htmlHandle (E : Ext) (s : SaveImagesOfflineSettings) (file : Option Str)
    (basePath url matchText : Str) (st : PState) : Str × PState :=
  if ¬ isLikelyImageUrl url then (matchText, st)
  else
    let st := { st with stats := { st.stats with total := st.stats.total + 1 } }
    if isIgnoredDomain url s.ignoredDomains then
      (matchText, { st with stats := { st.stats with skipped := st.stats.skipped + 1 } })
    else
      let r := downloadAndSaveImage E url st.vault s basePath
      let st := { st with vault := r.2.1, netFetches := st.netFetches + r.2.2 }
      match r.1 with
      | SaveResult.ok localPath =>
        if localPath ≠ [] then
          let altText := extractAlt matchText
          let imagePath := afterLastSlash localPath
          (str "![" ++ altText ++ str "](" ++ imagePath ++ str ")",
           { st with stats := { st.stats with downloaded := st.stats.downloaded + 1 } })
        else
          (matchText, { st with stats := { st.stats with failed := st.stats.failed + 1 } })
      | SaveResult.err =>
        (matchText, { st with stats := { st.stats with failed := st.stats.failed + 1 } })

/-- The Markdown replacement pass (fuelled; the fuel is one more than the
text length, and every step consumes at least one character). -/
def mdPass (E : Ext) (s : SaveImagesOfflineSettings) (file : Option Str)
    (basePath : Str) : Nat → Str → PState → Str × PState
  | 0, cs, st => (cs, st)
  | _ + 1, [], st => ([], st)
  | fuel + 1, c :: cs, st =>
    match mdMatchAt (c :: cs) with
    | some (alt, url, rest) =>
      let h := mdHandle E s file basePath alt url st
      let t := mdPass E s file basePath fuel rest h.2
      (h.1 ++ t.1, t.2)
    | none =>
      let t := mdPass E s file basePath fuel cs st
      (c :: t.1, t.2)

/-- The HTML replacement pass. -/
def htmlPass (E : Ext) (s : SaveImagesOfflineSettings) (file : Option Str)
    (basePath : Str) : Nat → Str → PState → Str × PState
  | 0, cs, st => (cs, st)
  | _ + 1, [], st => ([], st)
  | fuel + 1, c :: cs, st =>
    match htmlMatchAt (c :: cs) with
    | some (url, matchText, rest) =>
      let h := htmlHandle E s file basePath url matchText st
      let t := htmlPass E s file basePath fuel rest h.2
      (h.1 ++ t.1, t.2)
    | none =>
      let t := htmlPass E s file basePath fuel cs st
      (c :: t.1, t.2)

/-- `processContent(content, file, vault, settings, stats)` (lines 64-169):
folder setup, the Markdown pass, then the HTML pass over its output. -/
def processContent (E : Ext) (s : SaveImagesOfflineSettings) (file : Option Str)
    (content : Str) (st : PState) : Str × PState :=
  let basePath := computeBasePath file s
  let st := { st with vault := ensureFolderExists st.vault basePath }
  let p1 := mdPass E s file basePath (content.length + 1) content st
  htmlPass E s file basePath (p1.1.length + 1) p1.1 p1.2

/-! ## Concrete sample worlds used by witnesses and counterexamples -/

/-- A network that answers the first attempt with a PNG, a transcoder that
appends a marker byte and a fixed MD5 digest. -/
def sampleExt : Ext where
  fetch := fun _ k => if k = 0 then some [0x89, 0x50, 0x4e, 0x47, 7] else none
  convert := fun b _ => some (b ++ [1])
  md5 := fun _ => str "00112233aabbccdd"

/-- Default settings with a short image folder name. -/
def sampleSettings : SaveImagesOfflineSettings :=
  { DEFAULT_SETTINGS with imageFolder := str "att" }

/-- Zero statistics, an empty vault and no recorded requests. -/
def emptyState : PState where
  stats := { total := 0, downloaded := 0, failed := 0, skipped := 0 }
  vault := { files := [], folders := [] }
  netFetches := 0

/-- A second sample world with a different digest, used for the HTML
replacement scenario. -/
def sampleExt2 : Ext where
  fetch := fun _ k => if k = 0 then some [0x89, 0x50, 0x4e, 0x47] else none
  convert := fun b _ => some b
  md5 := fun _ => str "aabbccdd994455"

/-! ## Supporting lemmas -/

theorem countFetches_retryTrace (k : Nat) : countFetches (retryTrace k) = k + 1 := by
  induction k with
  | zero => rfl
  | succ n ih => simp [retryTrace, countFetches, List.filter] at ih ⊢; omega

/-- Number of backoff waits in a trace. -/
def countWaits (t : List DlEvent) : Nat :=
  (t.filter (fun e => e matches DlEvent.wait _)).length

theorem countWaits_retryTrace (k : Nat) : countWaits (retryTrace k) = k := by
  induction k with
  | zero => rfl
  | succ n ih => simp [retryTrace, countWaits, List.filter] at ih ⊢; omega

theorem retryTrace_getLast (k : Nat) : (retryTrace k).getLast? = some DlEvent.fetch := by
  induction k with
  | zero => rfl
  | succ n ih =>
    rw [retryTrace, List.getLast?_cons_cons]
    cases hh : retryTrace n with
    | nil => simp [hh] at ih
    | cons a l =>
      rw [hh] at ih
      rw [List.getLast?_cons_cons]
      exact ih

theorem jsEndsWith_iff (s suff : Str) : jsEndsWith s suff = true ↔ ∃ t, s = t ++ suff := by
  unfold jsEndsWith
  constructor
  · intro h
    have hd : suff = s.drop (s.length - suff.length) := by
      exact eq_of_beq h
    refine ⟨s.take (s.length - suff.length), ?_⟩
    conv_lhs => rw [← List.take_append_drop (s.length - suff.length) s]
    rw [← hd]
  · rintro ⟨t, rfl⟩
    have hlen : (t ++ suff).length - suff.length = t.length := by
      simp
    rw [hlen, List.drop_left]
    simp

theorem jsEndsWith_append (t suff : Str) : jsEndsWith (t ++ suff) suff = true :=
  (jsEndsWith_iff _ _).2 ⟨t, rfl⟩

theorem contains_append_cons (l e : Str) (c : Char) : (l ++ c :: e).contains c = true := by
  exact List.elem_eq_true_of_mem (List.mem_append_right l (List.mem_cons_self c e))

theorem joinPath_ne_nil (b f : Str) : joinPath b f ≠ [] := by
  unfold joinPath
  split
  · rename_i h
    intro hc
    rw [List.append_eq_nil] at hc
    simp [hc.1] at h
  · intro hc
    rw [List.append_eq_nil] at hc
    exact List.cons_ne_nil _ _ hc.2

theorem getFileExtension_ne_nil (url : Str) : getFileExtension url ≠ [] := by
  unfold getFileExtension
  by_cases h : urlExtensionCore url = [] <;> simp only [h, if_true, if_false] <;>
    split_ifs <;> simp_all [str]

theorem getFileExtension_ne_awebp (url : Str) : getFileExtension url ≠ str "awebp" := by
  unfold getFileExtension
  by_cases h : urlExtensionCore url = [] <;> simp only [h, if_true, if_false] <;>
    split_ifs <;> simp_all [str]

theorem resolveExtension_of_sniff (url : Str) (bytes : List Nat) (e : Str)
    (he : sniffExtension bytes = e) (hne : e ≠ []) (hna : e ≠ str "awebp") :
    resolveExtension url bytes = e := by
  unfold resolveExtension
  rw [he]
  by_cases h : e = getFileExtension url
  · simp [← h, hne, hna]
  · simp [hne, h, hna]

theorem sniffExtension_cases (bytes : List Nat) :
    sniffExtension bytes = [] ∨
      sniffExtension bytes ∈ [str "png", str "jpg", str "gif", str "bmp"] := by
  unfold sniffExtension
  split_ifs <;> simp [str]

theorem resolveExtension_of_no_sniff (url : Str) (bytes : List Nat)
    (he : sniffExtension bytes = []) :
    resolveExtension url bytes = getFileExtension url := by
  unfold resolveExtension
  rw [he]
  simp [getFileExtension_ne_nil url, getFileExtension_ne_awebp url]

theorem generateFilename_isSome (E : Ext) (s : SaveImagesOfflineSettings)
    (url : Str) (fd : List Nat) (ext : Str)
    (h : s.useMD5ForFilenames = true ∨ (parseUrl url).isSome = true) :
    ∃ fn, generateFilename E s url fd ext = some fn := by
  unfold generateFilename originalName
  by_cases hm : s.useMD5ForFilenames = true
  · simp [hm]
  · rcases h with h | h
    · exact absurd h hm
    · obtain ⟨u, hu⟩ := Option.isSome_iff_exists.1 h
      simp [hm, hu]

/-! ## Claim theorems -/

/-- C5: for every oracle and `maxRetries ≥ 1`, `downloadImage` makes at most
`maxRetries` sequential fetch attempts; a 2xx response on attempt `k` (after
`k` failures) returns the bytes immediately with trace
`(fetch, wait 1000)^k, fetch`; when every allowed attempt fails it returns
`null` (not an exception — the model is total) with trace
`(fetch, wait 1000)^(maxRetries-1), fetch`, so each failed attempt except
the last is followed by exactly one fixed 1000 ms wait and no wait follows
the final attempt (the last trace event is a fetch). -/
theorem download_retry_behavior (oracle : Nat → Option (List Nat)) (retries : Int)
    (hret : 1 ≤ retries) :
    countFetches (downloadImage oracle retries).1 ≤ retries.toNat ∧
    (∀ (k : Nat) (b : List Nat), (k : Int) < retries →
      (∀ j, j < k → oracle j = none) → oracle k = some b →
      downloadImage oracle retries = (retryTrace k, some b)) ∧
    ((∀ j : Nat, (j : Int) < retries → oracle j = none) →
      downloadImage oracle retries = (retryTrace (retries.toNat - 1), none)) ∧
    (∀ k, countFetches (retryTrace k) = k + 1 ∧ countWaits (retryTrace k) = k ∧
      (retryTrace k).getLast? = some DlEvent.fetch) := by
  refine ⟨dlRun_fetch_bound oracle retries.toNat 0, ?_, ?_, ?_⟩
  · intro k b hk hfail hok
    unfold downloadImage
    exact dlRun_success oracle k retries.toNat 0 b (by omega)
      (fun j hj => by simpa using hfail j hj) (by simpa using hok)
  · intro hfail
    unfold downloadImage
    exact dlRun_all_fail oracle retries.toNat 0 (by omega)
      (fun j hj => by
        have : (j : Int) < retries := by omega
        simpa using hfail j this)
  · intro k
    exact ⟨countFetches_retryTrace k, countWaits_retryTrace k, retryTrace_getLast k⟩

theorem download_retry_behavior_witness :
    downloadImage (fun k => if k = 2 then some [7] else none) 5 =
      (retryTrace 2, some [7]) :=
  (download_retry_behavior (fun k => if k = 2 then some [7] else none) 5
    (by decide)).2.1 2 [7] (by decide)
    (by
      intro j hj
      show (if j = 2 then some [7] else none) = none
      rw [if_neg]
      omega) (by decide)

/-- C10: calling `downloadImage` with a retries argument of zero or less
returns `null` with an empty event trace — no fetch is attempted and no
wait happens, because the `while (attempts < retries)` body never runs. -/
theorem zero_retries_no_fetch (oracle : Nat → Option (List Nat)) (retries : Int)
    (h : retries ≤ 0) : downloadImage oracle retries = ([], none) := by
  unfold downloadImage
  have hz : retries.toNat = 0 := by omega
  rw [hz]
  rfl

theorem zero_retries_no_fetch_witness :
    downloadImage (fun _ => some [1]) (-3) = ([], none) :=
  zero_retries_no_fetch (fun _ => some [1]) (-3) (by decide)

/-- C2: a recognized byte signature determines the resolved extension
regardless of the URL: `89 50 4E 47 → png`, `FF D8 → jpg`, `47 49 46 → gif`,
`52 49 46 46 → jpg` (with or without `WEBP` at offset 8), `42 4D → bmp`;
a URL ending `.png` over `FF D8` bytes resolves to `jpg`; without a
signature the URL-derived extension (`getFileExtension`) is kept, and when
the URL yields nothing the result defaults to `jpg`. -/
theorem sniff_overrides_url_extension (url : Str) (r bytes : List Nat) :
    resolveExtension url (0x89 :: 0x50 :: 0x4e :: 0x47 :: r) = str "png" ∧
    resolveExtension url (0xff :: 0xd8 :: r) = str "jpg" ∧
    resolveExtension url (0x47 :: 0x49 :: 0x46 :: r) = str "gif" ∧
    (bytes.get? 0 = some 0x52 → bytes.get? 1 = some 0x49 → bytes.get? 2 = some 0x46 →
      bytes.get? 3 = some 0x46 → resolveExtension url bytes = str "jpg") ∧
    resolveExtension url (0x42 :: 0x4d :: r) = str "bmp" ∧
    resolveExtension (str "https://example.com/photo.png") (0xff :: 0xd8 :: r) = str "jpg" ∧
    (sniffExtension bytes = [] → resolveExtension url bytes = getFileExtension url) ∧
    (sniffExtension bytes = [] → urlExtensionCore url = [] →
      resolveExtension url bytes = str "jpg") := by
  refine ⟨?_, ?_, ?_, ?_, ?_, ?_, ?_, ?_⟩
  · exact resolveExtension_of_sniff url _ _ (by rfl) (by decide) (by decide)
  · exact resolveExtension_of_sniff url _ _ (by rfl) (by decide) (by decide)
  · exact resolveExtension_of_sniff url _ _ (by rfl) (by decide) (by decide)
  · intro h0 h1 h2 h3
    refine resolveExtension_of_sniff url _ _ ?_ (by decide) (by decide)
    have hne : (some 0x52 : Option Nat) ≠ some 0x89 := by decide
    unfold sniffExtension byteIs
    rw [h0, h1, h2, h3]
    simp
  · exact resolveExtension_of_sniff url _ _ (by rfl) (by decide) (by decide)
  · exact resolveExtension_of_sniff _ _ _ (by rfl) (by decide) (by decide)
  · intro he
    exact resolveExtension_of_no_sniff url bytes he
  · intro he hcore
    rw [resolveExtension_of_no_sniff url bytes he]
    unfold getFileExtension
    rw [hcore]
    rfl

theorem sniff_overrides_url_extension_witness :
    resolveExtension (str "https://x.io/a") [0x52, 0x49, 0x46, 0x46] = str "jpg" :=
  (sniff_overrides_url_extension (str "https://x.io/a") []
    [0x52, 0x49, 0x46, 0x46]).2.2.2.1 (by decide) (by decide) (by decide) (by decide)

/-- C7: `isIgnoredDomain` is true exactly when the setting is nonempty, the
URL parses and its hostname equals a configured (trimmed, lowercased) entry
or ends in `.` followed by one; with `example.com` configured,
`example.com` and `sub.example.com` match while `notexample.com` does not;
a parse failure or an empty setting yields false. -/
theorem ignored_domain_matching (url doms : Str) :
    (isIgnoredDomain url doms = true ↔
      (doms ≠ [] ∧ ∃ u, parseUrl url = some u ∧ ∃ d ∈ parsedIgnoredList doms,
        u.hostname = d ∨ ∃ pre, u.hostname = pre ++ '.' :: d)) ∧
    (parseUrl url = none → isIgnoredDomain url doms = false) ∧
    isIgnoredDomain url [] = false ∧
    isIgnoredDomain (str "https://example.com/a.png") (str "example.com") = true ∧
    isIgnoredDomain (str "https://sub.example.com/a.png") (str "example.com") = true ∧
    isIgnoredDomain (str "https://notexample.com/a.png") (str "example.com") = false := by
  refine ⟨?_, ?_, by rfl, by decide, by decide, by decide⟩
  · unfold isIgnoredDomain
    by_cases hd : doms = []
    · simp [hd]
    · rw [if_neg hd]
      cases hu : parseUrl url with
      | none => simp [hu]
      | some u =>
        simp only [hd, ne_eq, not_false_eq_true, true_and, Option.some.injEq]
        rw [List.any_eq_true]
        constructor
        · rintro ⟨d, hmem, hcond⟩
          rw [Bool.or_eq_true] at hcond
          rcases hcond with h | h
          · exact ⟨u, rfl, d, hmem, Or.inl (eq_of_beq h)⟩
          · exact ⟨u, rfl, d, hmem, Or.inr ((jsEndsWith_iff _ _).1 h)⟩
        · rintro ⟨u', hu', d, hmem, hcase⟩
          cases hu'
          refine ⟨d, hmem, ?_⟩
          rw [Bool.or_eq_true]
          rcases hcase with h | h
          · exact Or.inl (by rw [h]; exact beq_self_eq_true d)
          · exact Or.inr ((jsEndsWith_iff _ _).2 h)
  · intro h
    unfold isIgnoredDomain
    split
    · rfl
    · rw [h]

theorem ignored_domain_matching_witness :
    isIgnoredDomain (str "notaurl") (str "x.io") = false :=
  (ignored_domain_matching (str "notaurl") (str "x.io")).2.1 (by decide)

/-- Exactly one of the three outcome counters increments while the other
two stay unchanged. -/
def BumpOne (a b : Stats) : Prop :=
  (b.downloaded = a.downloaded + 1 ∧ b.failed = a.failed ∧ b.skipped = a.skipped) ∨
  (b.failed = a.failed + 1 ∧ b.downloaded = a.downloaded ∧ b.skipped = a.skipped) ∨
  (b.skipped = a.skipped + 1 ∧ b.downloaded = a.downloaded ∧ b.failed = a.failed)

theorem mdHandle_stats_cases (E : Ext) (s : SaveImagesOfflineSettings) (file : Option Str)
    (basePath alt url : Str) (st : PState) :
    (isLikelyImageUrl url = false ∧ (mdHandle E s file basePath alt url st).2 = st) ∨
    (isLikelyImageUrl url = true ∧
      (mdHandle E s file basePath alt url st).2.stats.total = st.stats.total + 1 ∧
      BumpOne st.stats (mdHandle E s file basePath alt url st).2.stats) := by
  by_cases h1 : isLikelyImageUrl url = true
  · right
    refine ⟨h1, ?_⟩
    unfold mdHandle
    rw [if_neg (by simp [h1])]
    by_cases h2 : isIgnoredDomain url s.ignoredDomains = true
    · rw [if_pos h2]
      simp [BumpOne]
    · rw [if_neg h2]
      cases hr : (downloadAndSaveImage E url st.vault s basePath).1 with
      | ok localPath =>
        simp only [hr]
        by_cases h3 : localPath ≠ []
        · rw [if_pos h3]; simp [BumpOne]
        · rw [if_neg h3]; simp [BumpOne]
      | err => simp only [hr]; simp [BumpOne]
  · left
    refine ⟨by simpa using h1, ?_⟩
    unfold mdHandle
    rw [if_pos (by simpa using h1)]

theorem htmlHandle_stats_cases (E : Ext) (s : SaveImagesOfflineSettings) (file : Option Str)
    (basePath url matchText : Str) (st : PState) :
    (isLikelyImageUrl url = false ∧ (htmlHandle E s file basePath url matchText st).2 = st) ∨
    (isLikelyImageUrl url = true ∧
      (htmlHandle E s file basePath url matchText st).2.stats.total = st.stats.total + 1 ∧
      BumpOne st.stats (htmlHandle E s file basePath url matchText st).2.stats) := by
  by_cases h1 : isLikelyImageUrl url = true
  · right
    refine ⟨h1, ?_⟩
    unfold htmlHandle
    rw [if_neg (by simp [h1])]
    by_cases h2 : isIgnoredDomain url s.ignoredDomains = true
    · rw [if_pos h2]
      simp [BumpOne]
    · rw [if_neg h2]
      cases hr : (downloadAndSaveImage E url st.vault s basePath).1 with
      | ok localPath =>
        simp only [hr]
        by_cases h3 : localPath ≠ []
        · rw [if_pos h3]; simp [BumpOne]
        · rw [if_neg h3]; simp [BumpOne]
      | err => simp only [hr]; simp [BumpOne]
  · left
    refine ⟨by simpa using h1, ?_⟩
    unfold htmlHandle
    rw [if_pos (by simpa using h1)]

theorem mdHandle_inv (E : Ext) (s : SaveImagesOfflineSettings) (file : Option Str)
    (basePath alt url : Str) (st : PState)
    (h : st.stats.total = st.stats.downloaded + st.stats.failed + st.stats.skipped) :
    (mdHandle E s file basePath alt url st).2.stats.total =
      (mdHandle E s file basePath alt url st).2.stats.downloaded +
      (mdHandle E s file basePath alt url st).2.stats.failed +
      (mdHandle E s file basePath alt url st).2.stats.skipped := by
  rcases mdHandle_stats_cases E s file basePath alt url st with ⟨_, he⟩ | ⟨_, ht, hb⟩
  · rw [he]; exact h
  · rcases hb with ⟨a, b, c⟩ | ⟨a, b, c⟩ | ⟨a, b, c⟩ <;> omega

theorem htmlHandle_inv (E : Ext) (s : SaveImagesOfflineSettings) (file : Option Str)
    (basePath url matchText : Str) (st : PState)
    (h : st.stats.total = st.stats.downloaded + st.stats.failed + st.stats.skipped) :
    (htmlHandle E s file basePath url matchText st).2.stats.total =
      (htmlHandle E s file basePath url matchText st).2.stats.downloaded +
      (htmlHandle E s file basePath url matchText st).2.stats.failed +
      (htmlHandle E s file basePath url matchText st).2.stats.skipped := by
  rcases htmlHandle_stats_cases E s file basePath url matchText st with ⟨_, he⟩ | ⟨_, ht, hb⟩
  · rw [he]; exact h
  · rcases hb with ⟨a, b, c⟩ | ⟨a, b, c⟩ | ⟨a, b, c⟩ <;> omega

theorem mdPass_inv (E : Ext) (s : SaveImagesOfflineSettings) (file : Option Str)
    (basePath : Str) :
    ∀ (fuel : Nat) (cs : Str) (st : PState),
      st.stats.total = st.stats.downloaded + st.stats.failed + st.stats.skipped →
      (mdPass E s file basePath fuel cs st).2.stats.total =
        (mdPass E s file basePath fuel cs st).2.stats.downloaded +
        (mdPass E s file basePath fuel cs st).2.stats.failed +
        (mdPass E s file basePath fuel cs st).2.stats.skipped := by
  intro fuel
  induction fuel with
  | zero => intro cs st h; simpa [mdPass] using h
  | succ n ih =>
    intro cs st h
    cases cs with
    | nil => simpa [mdPass] using h
    | cons c t =>
      cases hm : mdMatchAt (c :: t) with
      | none => simp only [mdPass, hm]; exact ih t st h
      | some triple =>
        obtain ⟨alt, url, rest⟩ := triple
        simp only [mdPass, hm]
        exact ih rest _ (mdHandle_inv E s file basePath alt url st h)

theorem htmlPass_inv (E : Ext) (s : SaveImagesOfflineSettings) (file : Option Str)
    (basePath : Str) :
    ∀ (fuel : Nat) (cs : Str) (st : PState),
      st.stats.total = st.stats.downloaded + st.stats.failed + st.stats.skipped →
      (htmlPass E s file basePath fuel cs st).2.stats.total =
        (htmlPass E s file basePath fuel cs st).2.stats.downloaded +
        (htmlPass E s file basePath fuel cs st).2.stats.failed +
        (htmlPass E s file basePath fuel cs st).2.stats.skipped := by
  intro fuel
  induction fuel with
  | zero => intro cs st h; simpa [htmlPass] using h
  | succ n ih =>
    intro cs st h
    cases cs with
    | nil => simpa [htmlPass] using h
    | cons c t =>
      cases hm : htmlMatchAt (c :: t) with
      | none => simp only [htmlPass, hm]; exact ih t st h
      | some triple =>
        obtain ⟨url, matchText, rest⟩ := triple
        simp only [htmlPass, hm]
        exact ih rest _ (htmlHandle_inv E s file basePath url matchText st h)

/-- C1: a match that fails image classification leaves the counters
untouched; an image-like match increments `total` and then exactly one of
`downloaded`, `failed`, `skipped`; consequently each single-match
resolution preserves `total = downloaded + failed + skipped`, and so does a
whole `processContent` run. -/
theorem stats_invariant (E : Ext) (s : SaveImagesOfflineSettings)
    (file : Option Str) (basePath alt url matchText content : Str) (st : PState)
    (h : st.stats.total = st.stats.downloaded + st.stats.failed + st.stats.skipped) :
    (isLikelyImageUrl url = false →
      (mdHandle E s file basePath alt url st).2 = st ∧
      (htmlHandle E s file basePath url matchText st).2 = st) ∧
    (isLikelyImageUrl url = true →
      ((mdHandle E s file basePath alt url st).2.stats.total = st.stats.total + 1 ∧
        BumpOne st.stats (mdHandle E s file basePath alt url st).2.stats) ∧
      ((htmlHandle E s file basePath url matchText st).2.stats.total = st.stats.total + 1 ∧
        BumpOne st.stats (htmlHandle E s file basePath url matchText st).2.stats)) ∧
    ((mdHandle E s file basePath alt url st).2.stats.total =
      (mdHandle E s file basePath alt url st).2.stats.downloaded +
      (mdHandle E s file basePath alt url st).2.stats.failed +
      (mdHandle E s file basePath alt url st).2.stats.skipped) ∧
    ((htmlHandle E s file basePath url matchText st).2.stats.total =
      (htmlHandle E s file basePath url matchText st).2.stats.downloaded +
      (htmlHandle E s file basePath url matchText st).2.stats.failed +
      (htmlHandle E s file basePath url matchText st).2.stats.skipped) ∧
    ((processContent E s file content st).2.stats.total =
      (processContent E s file content st).2.stats.downloaded +
      (processContent E s file content st).2.stats.failed +
      (processContent E s file content st).2.stats.skipped) := by
  refine ⟨?_, ?_, mdHandle_inv E s file basePath alt url st h,
    htmlHandle_inv E s file basePath url matchText st h, ?_⟩
  · intro hn
    constructor
    · rcases mdHandle_stats_cases E s file basePath alt url st with ⟨_, he⟩ | ⟨ht, _⟩
      · exact he
      · rw [hn] at ht; exact absurd ht (by decide)
    · rcases htmlHandle_stats_cases E s file basePath url matchText st with ⟨_, he⟩ | ⟨ht, _⟩
      · exact he
      · rw [hn] at ht; exact absurd ht (by decide)
  · intro hy
    constructor
    · rcases mdHandle_stats_cases E s file basePath alt url st with ⟨hf, _⟩ | ⟨_, ht, hb⟩
      · rw [hy] at hf; exact absurd hf (by decide)
      · exact ⟨ht, hb⟩
    · rcases htmlHandle_stats_cases E s file basePath url matchText st with ⟨hf, _⟩ | ⟨_, ht, hb⟩
      · rw [hy] at hf; exact absurd hf (by decide)
      · exact ⟨ht, hb⟩
  · unfold processContent
    exact htmlPass_inv E s file (computeBasePath file s) _ _ _
      (mdPass_inv E s file (computeBasePath file s) _ _ _ h)

theorem stats_invariant_witness :
    (processContent sampleExt sampleSettings none
        (str "x ![p](https://a.io/i.png) <img src='https://e.com/q'> y")
        emptyState).2.stats.total =
      (processContent sampleExt sampleSettings none
        (str "x ![p](https://a.io/i.png) <img src='https://e.com/q'> y")
        emptyState).2.stats.downloaded +
      (processContent sampleExt sampleSettings none
        (str "x ![p](https://a.io/i.png) <img src='https://e.com/q'> y")
        emptyState).2.stats.failed +
      (processContent sampleExt sampleSettings none
        (str "x ![p](https://a.io/i.png) <img src='https://e.com/q'> y")
        emptyState).2.stats.skipped :=
  (stats_invariant sampleExt sampleSettings none [] [] [] []
    (str "x ![p](https://a.io/i.png) <img src='https://e.com/q'> y")
    emptyState (by decide)).2.2.2.2

theorem mdPass_no_match (E : Ext) (s : SaveImagesOfflineSettings) (file : Option Str)
    (basePath : Str) :
    ∀ (cs : Str) (fuel : Nat) (st : PState), hasMdMatch cs = false →
      mdPass E s file basePath fuel cs st = (cs, st) := by
  intro cs
  induction cs with
  | nil => intro fuel st _; cases fuel <;> rfl
  | cons c t ih =>
    intro fuel st h
    rw [hasMdMatch, Bool.or_eq_false_iff] at h
    cases fuel with
    | zero => rfl
    | succ n =>
      have hm : mdMatchAt (c :: t) = none := by
        cases hmm : mdMatchAt (c :: t) with
        | none => rfl
        | some v => rw [hmm] at h; simp at h
      simp only [mdPass, hm, ih n st h.2]

theorem htmlPass_no_match (E : Ext) (s : SaveImagesOfflineSettings) (file : Option Str)
    (basePath : Str) :
    ∀ (cs : Str) (fuel : Nat) (st : PState), hasHtmlMatch cs = false →
      htmlPass E s file basePath fuel cs st = (cs, st) := by
  intro cs
  induction cs with
  | nil => intro fuel st _; cases fuel <;> rfl
  | cons c t ih =>
    intro fuel st h
    rw [hasHtmlMatch, Bool.or_eq_false_iff] at h
    cases fuel with
    | zero => rfl
    | succ n =>
      have hm : htmlMatchAt (c :: t) = none := by
        cases hmm : htmlMatchAt (c :: t) with
        | none => rfl
        | some v => rw [hmm] at h; simp at h
      simp only [htmlPass, hm, ih n st h.2]

/-- C4: when the output of a first `processContent` run contains no further
match of either image grammar (all rewritten references are local — the
grammars only match `http(s)://` URLs — and nothing image-like remains
remote), a second run over that output returns the identical content,
leaves every statistic and the network-request count unchanged and only
re-runs the idempotent folder-existence setup: a pure no-op with no new
downloads. -/
theorem second_pass_noop (E : Ext) (s : SaveImagesOfflineSettings) (file : Option Str)
    (content : Str) (st st2 : PState)
    (h1 : hasMdMatch (processContent E s file content st).1 = false)
    (h2 : hasHtmlMatch (processContent E s file content st).1 = false) :
    processContent E s file (processContent E s file content st).1 st2 =
      ((processContent E s file content st).1,
       { st2 with vault := ensureFolderExists st2.vault (computeBasePath file s) }) := by
  conv_lhs => rw [processContent]
  rw [mdPass_no_match E s file (computeBasePath file s) _ _ _ h1]
  rw [htmlPass_no_match E s file (computeBasePath file s) _ _ _ h2]

theorem second_pass_noop_witness :
    processContent sampleExt sampleSettings none
        (processContent sampleExt sampleSettings none
          (str "x ![p](https://a.io/i.png) y") emptyState).1
        (processContent sampleExt sampleSettings none
          (str "x ![p](https://a.io/i.png) y") emptyState).2 =
      ((processContent sampleExt sampleSettings none
          (str "x ![p](https://a.io/i.png) y") emptyState).1,
       { (processContent sampleExt sampleSettings none
            (str "x ![p](https://a.io/i.png) y") emptyState).2 with
          vault := ensureFolderExists
            (processContent sampleExt sampleSettings none
              (str "x ![p](https://a.io/i.png) y") emptyState).2.vault
            (computeBasePath none sampleSettings) }) :=
  second_pass_noop sampleExt sampleSettings none
    (str "x ![p](https://a.io/i.png) y") emptyState
    (processContent sampleExt sampleSettings none
      (str "x ![p](https://a.io/i.png) y") emptyState).2
    (by decide) (by decide)

/-- C6: when a file already exists at the computed local path,
`downloadAndSaveImage` performs no binary write — the vault (and hence the
existing file's bytes) is returned unchanged, with no rehash against the
stored content — and reports success with that path; consequently the
Markdown match is counted as `downloaded` and the document reference is
rewritten to the (note-relativised) local path. -/
theorem existing_file_reused (E : Ext) (s : SaveImagesOfflineSettings)
    (file : Option Str) (basePath alt url : Str) (st : PState)
    (data : List Nat) (fn : Str)
    (hdl : (dlOutcome E s url).2 = some data)
    (hfn : pipelineFilename E s url data = some fn)
    (hex : vaultExists st.vault (joinPath basePath fn) = true)
    (hlikely : isLikelyImageUrl url = true)
    (hig : isIgnoredDomain url s.ignoredDomains = false) :
    downloadAndSaveImage E url st.vault s basePath =
      (SaveResult.ok (joinPath basePath fn), st.vault,
        countFetches (dlOutcome E s url).1) ∧
    mdHandle E s file basePath alt url st =
      (str "![" ++ alt ++ str "](" ++
         relativizeForNote file (joinPath basePath fn) ++ str ")",
       { st with
           stats := { st.stats with
                        total := st.stats.total + 1,
                        downloaded := st.stats.downloaded + 1 },
           netFetches := st.netFetches + countFetches (dlOutcome E s url).1 }) := by
  have hsave : downloadAndSaveImage E url st.vault s basePath =
      (SaveResult.ok (joinPath basePath fn), st.vault,
        countFetches (dlOutcome E s url).1) := by
    unfold downloadAndSaveImage
    simp only [hdl, hfn, hex, if_true]
  refine ⟨hsave, ?_⟩
  unfold mdHandle
  rw [if_neg (by simp [hlikely]), if_neg (by simp [hig])]
  simp only [hsave, ne_eq, joinPath_ne_nil, not_false_eq_true, if_true]

theorem existing_file_reused_witness :
    mdHandle sampleExt sampleSettings none (str "att") (str "p")
        (str "https://a.io/i.png")
        { emptyState with
            vault := { files := [(str "att/i-00112233.png", [9])], folders := [] } } =
      (str "![p](att/i-00112233.png)",
       { stats := { total := 1, downloaded := 1, failed := 0, skipped := 0 },
         vault := { files := [(str "att/i-00112233.png", [9])], folders := [] },
         netFetches := 1 }) := by
  have h := (existing_file_reused sampleExt sampleSettings none (str "att") (str "p")
    (str "https://a.io/i.png")
    { emptyState with
        vault := { files := [(str "att/i-00112233.png", [9])], folders := [] } }
    [0x89, 0x50, 0x4e, 0x47, 7] (str "i-00112233.png")
    (by decide) (by decide) (by decide) (by decide) (by decide)).2
  rw [h]
  decide

/-- C9: with `convertPngToJpeg` enabled and a resolved `png` extension, a
transcoding failure leaves the original PNG bytes and the `png` extension
in use, a transcoding success switches to the JPEG output and the `jpg`
extension, and in either case the overall download still succeeds whenever
a filename can be generated at all (always under the hash policy, and
whenever the URL parses under the original-name policy). -/
theorem png_conversion_fallback (E : Ext) (s : SaveImagesOfflineSettings)
    (url : Str) (data : List Nat) (v : Vault) (basePath : Str)
    (hset : s.convertPngToJpeg = true)
    (hext : resolveExtension url data = str "png")
    (hdl : (dlOutcome E s url).2 = some data) :
    (E.convert data s.jpegQuality = none →
      resolvedPair E s url data = (data, str "png")) ∧
    (∀ j, E.convert data s.jpegQuality = some j →
      resolvedPair E s url data = (j, str "jpg")) ∧
    ((s.useMD5ForFilenames = true ∨ (parseUrl url).isSome = true) →
      ∃ lp v2 n, downloadAndSaveImage E url v s basePath = (SaveResult.ok lp, v2, n)) := by
  refine ⟨?_, ?_, ?_⟩
  · intro hc
    unfold resolvedPair applyPngConversion
    rw [hext, hc]
    simp [hset, str, lower, lcChar]
  · intro j hc
    unfold resolvedPair applyPngConversion
    rw [hext, hc]
    simp [hset, str, lower, lcChar]
  · intro hpol
    obtain ⟨fn, hfn⟩ := generateFilename_isSome E s url
      (resolvedPair E s url data).1 (resolvedPair E s url data).2 hpol
    have hfn2 : pipelineFilename E s url data = some fn := hfn
    unfold downloadAndSaveImage
    simp only [hdl, hfn2]
    by_cases hv : vaultExists v (joinPath basePath fn) = true
    · rw [if_pos hv]
      exact ⟨_, _, _, rfl⟩
    · rw [if_neg hv]
      exact ⟨_, _, _, rfl⟩

theorem png_conversion_fallback_witness :
    resolvedPair
        { fetch := fun _ k => if k = 0 then some [0x89, 0x50, 0x4e, 0x47] else none,
          convert := fun _ _ => none,
          md5 := fun _ => str "cc" }
        { sampleSettings with convertPngToJpeg := true }
        (str "https://a.io/i.png") [0x89, 0x50, 0x4e, 0x47] =
      ([0x89, 0x50, 0x4e, 0x47], str "png") :=
  (png_conversion_fallback
    { fetch := fun _ k => if k = 0 then some [0x89, 0x50, 0x4e, 0x47] else none,
      convert := fun _ _ => none,
      md5 := fun _ => str "cc" }
    { sampleSettings with convertPngToJpeg := true }
    (str "https://a.io/i.png") [0x89, 0x50, 0x4e, 0x47]
    { files := [], folders := [] } (str "att")
    (by decide) (by decide) (by decide)).1 (by decide)

theorem ensureDot_contains (f0 ext : Str) :
    (if ¬ f0.contains '.' then f0 ++ '.' :: ext else f0).contains '.' = true := by
  by_cases h : f0.contains '.' = true
  · rw [if_neg (not_not_intro h)]
    exact h
  · rw [if_pos h]
    exact contains_append_cons f0 ext '.'

theorem sniffExtension_ne_awebp (bytes : List Nat) : sniffExtension bytes ≠ str "awebp" := by
  unfold sniffExtension
  split_ifs <;> decide

theorem applyPng_ext_mem (E : Ext) (s : SaveImagesOfflineSettings)
    (data : List Nat) (ext : Str)
    (h : ext ∈ [str "png", str "jpg", str "gif", str "bmp"]) :
    (applyPngConversion E s data ext).2 ∈ [str "png", str "jpg", str "gif", str "bmp"] := by
  unfold applyPngConversion
  split_ifs with hc
  · cases hcv : E.convert data s.jpegQuality with
    | none => simpa using h
    | some j => simp [str]
  · exact h

/-- C3 counterexample: with the default hash policy, the URL
`https://example.com/a.b.tiff` and unrecognizable bytes produce the
filename `a.b-00112233.tiff`, which contains two `.` separators (not
exactly one) and ends in `tiff`, outside `{png, jpg, gif, bmp}` — so the
claim fails as stated. -/
theorem filename_shape_cex :
    pipelineFilename sampleExt sampleSettings (str "https://example.com/a.b.tiff") [0, 0] =
      some (str "a.b-00112233.tiff") ∧
    (str "a.b-00112233.tiff").count '.' = 2 ∧
    jsEndsWith (str "a.b-00112233.tiff") ('.' :: str "png") = false ∧
    jsEndsWith (str "a.b-00112233.tiff") ('.' :: str "jpg") = false ∧
    jsEndsWith (str "a.b-00112233.tiff") ('.' :: str "gif") = false ∧
    jsEndsWith (str "a.b-00112233.tiff") ('.' :: str "bmp") = false := by
  decide

/-- C3 amended: every generated filename contains at least one `.`; under
the hash-based policy a filename is always produced and ends in `.`
followed by the resolved extension, and when the downloaded bytes carry a
recognized signature that extension lies in `{png, jpg, gif, bmp}`.  The
original "exactly one separator, suffix always in the set" is false:
dotted URL segments survive into the name and URL-derived extensions that
were never sniffed (such as `tiff`) are kept. -/
theorem filename_shape_amended (E : Ext) (s : SaveImagesOfflineSettings)
    (url : Str) (data : List Nat) :
    (∀ fn, pipelineFilename E s url data = some fn → fn.contains '.' = true) ∧
    (s.useMD5ForFilenames = true →
      ∃ fn, pipelineFilename E s url data = some fn ∧
        jsEndsWith fn ('.' :: (resolvedPair E s url data).2) = true ∧
        (sniffExtension data ≠ [] →
          (resolvedPair E s url data).2 ∈ [str "png", str "jpg", str "gif", str "bmp"])) := by
  have hstem : ∀ fd ext, ∃ stem, hashBasedName E url fd ext = stem ++ '.' :: ext := by
    intro fd ext
    unfold hashBasedName
    by_cases hme : meaningfulNameFromUrl url ≠ []
    · rw [if_pos hme]
      refine ⟨(if 30 < (sanitizeFilename (meaningfulNameFromUrl url)).length then
          (sanitizeFilename (meaningfulNameFromUrl url)).take 30
        else sanitizeFilename (meaningfulNameFromUrl url)) ++
          '-' :: (E.md5 fd).take 8, ?_⟩
      rw [List.append_assoc]
    · rw [if_neg hme]
      exact ⟨E.md5 fd, rfl⟩
  constructor
  · intro fn h
    unfold pipelineFilename generateFilename at h
    by_cases hm : s.useMD5ForFilenames = true
    · rw [if_pos hm] at h
      simp only [Option.some.injEq] at h
      rw [← h]
      exact ensureDot_contains _ _
    · rw [if_neg hm] at h
      unfold originalName at h
      cases hp : parseUrl url with
      | none => rw [hp] at h; simp at h
      | some u =>
        rw [hp] at h
        simp only [Option.some.injEq] at h
        rw [← h]
        exact ensureDot_contains _ _
  · intro hm
    have hmem : sniffExtension data ≠ [] →
        (resolvedPair E s url data).2 ∈ [str "png", str "jpg", str "gif", str "bmp"] := by
      intro hs
      rcases sniffExtension_cases data with h | h
      · exact absurd h hs
      · have hr : resolveExtension url data = sniffExtension data :=
          resolveExtension_of_sniff url data _ rfl hs (sniffExtension_ne_awebp data)
        unfold resolvedPair
        rw [hr]
        exact applyPng_ext_mem E s data _ h
    obtain ⟨stem, hst⟩ := hstem (resolvedPair E s url data).1 (resolvedPair E s url data).2
    have hcont : (hashBasedName E url (resolvedPair E s url data).1
        (resolvedPair E s url data).2).contains '.' = true := by
      rw [hst]
      exact contains_append_cons _ _ '.'
    refine ⟨hashBasedName E url (resolvedPair E s url data).1 (resolvedPair E s url data).2,
      ?_, ?_, hmem⟩
    · unfold pipelineFilename generateFilename
      rw [if_pos hm]
      simp only [Option.some.injEq]
      rw [if_neg (not_not_intro hcont)]
    · rw [hst]
      exact jsEndsWith_append stem _

theorem filename_shape_amended_witness :
    ∃ fn, pipelineFilename sampleExt sampleSettings (str "https://a.io/i.png")
        [0xff, 0xd8] = some fn ∧
      jsEndsWith fn ('.' :: (resolvedPair sampleExt sampleSettings
        (str "https://a.io/i.png") [0xff, 0xd8]).2) = true ∧
      (sniffExtension [0xff, 0xd8] ≠ [] →
        (resolvedPair sampleExt sampleSettings (str "https://a.io/i.png") [0xff, 0xd8]).2 ∈
          [str "png", str "jpg", str "gif", str "bmp"]) :=
  (filename_shape_amended sampleExt sampleSettings (str "https://a.io/i.png")
    [0xff, 0xd8]).2 (by decide)

/-- C8 counterexample: for a successful HTML match inside note
`notes/n.md` with image folder `att`, the replacement is
`![hi](pic-aabbccdd.png)` — the bare filename — while the configured
note-relative local path (what the Markdown branch and the claim describe)
is `att/pic-aabbccdd.png`; so the replacement does not point at the
computed local path, folder- or note-relative per configuration. -/
theorem html_alt_and_filename_cex :
    (htmlHandle sampleExt2 sampleSettings (some (str "notes/n.md")) (str "notes/att")
        (str "https://ex.org/pic.png")
        (str "<img src=\"https://ex.org/pic.png\" alt=\"hi\">") emptyState).1 =
      str "![hi](pic-aabbccdd.png)" ∧
    relativizeForNote (some (str "notes/n.md"))
        (joinPath (str "notes/att") (str "pic-aabbccdd.png")) =
      str "att/pic-aabbccdd.png" ∧
    ¬ ((htmlHandle sampleExt2 sampleSettings (some (str "notes/n.md")) (str "notes/att")
        (str "https://ex.org/pic.png")
        (str "<img src=\"https://ex.org/pic.png\" alt=\"hi\">") emptyState).1 =
      str "![" ++ str "hi" ++ str "](" ++
        relativizeForNote (some (str "notes/n.md"))
          (joinPath (str "notes/att") (str "pic-aabbccdd.png")) ++ str ")") := by
  decide

/-- C8 amended: for every HTML match whose download succeeds, the
replacement uses the alt text extracted from the original tag's
`alt="..."` attribute (empty when absent) and points at the bare filename
— the final `/`-separated component of the computed local path — rather
than the folder- or note-relative path used for Markdown matches. -/
theorem html_replacement_amended (E : Ext) (s : SaveImagesOfflineSettings)
    (file : Option Str) (basePath url matchText : Str) (st : PState)
    (data : List Nat) (fn : Str)
    (hlikely : isLikelyImageUrl url = true)
    (hig : isIgnoredDomain url s.ignoredDomains = false)
    (hdl : (dlOutcome E s url).2 = some data)
    (hfn : pipelineFilename E s url data = some fn) :
    (htmlHandle E s file basePath url matchText st).1 =
      str "![" ++ extractAlt matchText ++ str "](" ++
        afterLastSlash (joinPath basePath fn) ++ str ")" ∧
    (htmlHandle E s file basePath url matchText st).2.stats.downloaded =
      st.stats.downloaded + 1 ∧
    extractAlt (str "<img src=\"https://a.io/i.png\">") = [] := by
  have h1 : (downloadAndSaveImage E url st.vault s basePath).1 =
      SaveResult.ok (joinPath basePath fn) := by
    unfold downloadAndSaveImage
    simp only [hdl, hfn]
    by_cases hv : vaultExists st.vault (joinPath basePath fn) = true
    · rw [if_pos hv]
    · rw [if_neg hv]
  refine ⟨?_, ?_, by decide⟩
  · unfold htmlHandle
    rw [if_neg (by simp [hlikely]), if_neg (by simp [hig])]
    simp only [h1, ne_eq, joinPath_ne_nil, not_false_eq_true, if_true]
  · unfold htmlHandle
    rw [if_neg (by simp [hlikely]), if_neg (by simp [hig])]
    simp only [h1, ne_eq, joinPath_ne_nil, not_false_eq_true, if_true]

theorem html_replacement_amended_witness :
    (htmlHandle sampleExt2 sampleSettings (some (str "notes/n.md")) (str "notes/att")
        (str "https://ex.org/pic.png")
        (str "<img src=\"https://ex.org/pic.png\" alt=\"hi\">") emptyState).1 =
      str "![" ++ extractAlt (str "<img src=\"https://ex.org/pic.png\" alt=\"hi\">") ++
        str "](" ++
        afterLastSlash (joinPath (str "notes/att") (str "pic-aabbccdd.png")) ++ str ")" :=
  (html_replacement_amended sampleExt2 sampleSettings (some (str "notes/n.md"))
    (str "notes/att") (str "https://ex.org/pic.png")
    (str "<img src=\"https://ex.org/pic.png\" alt=\"hi\">") emptyState
    [0x89, 0x50, 0x4e, 0x47] (str "pic-aabbccdd.png")
    (by decide) (by decide) (by decide) (by decide)).1

end SaveImagesOffline
